import Mathlib

/-!
Verification development for the Dot Remote API conversational query
orchestrator (`app.py`).  The Python source is shallowly embedded as
executable Lean definitions: the in-memory session store becomes explicit
state passing over a finite map, the Flask endpoint `claude_parse` becomes a
pure function parameterised by oracles for the reasoning engine and the
Airtable data store, and `json.loads` is modelled by an executable
fuel-indexed JSON parser over character lists.  Machine floats from the
source carry only currency amounts, embedded here as rationals.
-/

namespace DotRemote

/-! ### Python-style character and string helpers

The source manipulates `str` values with `strip`, `split('```')`,
`startswith`, slicing and `lower`.  We model these over `List Char`
(`String.data`), which keeps every definition executable and keeps kernel
reduction cheap for concrete witnesses.
-/

/-- The backtick character, written via its code point. -/
def backtick : Char := Char.ofNat 96

/-- The opening curly brace character, written via its code point. -/
def lbrace : Char := Char.ofNat 123

/-- The closing curly brace character, written via its code point. -/
def rbrace : Char := Char.ofNat 125

/-- Whitespace characters removed by Python `str.strip()`. -/
def pyIsSpace (c : Char) : Bool :=
  c = ' ' ∨ c = '\t' ∨ c = '\n' ∨ c = '\r' ∨ c = Char.ofNat 11 ∨ c = Char.ofNat 12

/-- Remove trailing characters satisfying `pyIsSpace`. -/
def dropTrail (l : List Char) : List Char :=
  (l.reverse.dropWhile pyIsSpace).reverse

/-- Python `str.strip()` over character lists. -/
def stripChars (l : List Char) : List Char :=
  dropTrail (l.dropWhile pyIsSpace)

/-- Python `str.strip()` on strings. -/
def pyStrip (s : String) : String := ⟨stripChars s.data⟩

/-- Does the list begin with three backticks?  (One window of the
Python `split('```')` scan.) -/
def isBT3 (l : List Char) : Bool :=
  match l with
  | a :: b :: c :: _ => a = backtick && b = backtick && c = backtick
  | _ => false

/-- Does the list contain `` ``` `` as a contiguous substring?  This is the
condition under which Python `s.split('```')` cuts the string. -/
def hasBT : List Char → Bool
  | [] => false
  | c :: r => isBT3 (c :: r) || hasBT r

/-- The scan of Python `s.split('```')`, structurally recursive on a fuel
bound: cut at every non-overlapping occurrence of three backticks,
scanning left to right.  With fuel at least the list length the fuel
clause is unreachable. -/
def splitBTF : Nat → List Char → List (List Char)
  | _, [] => [[]]
  | 0, l => [l]
  | f + 1, c :: rest =>
    if isBT3 (c :: rest) then
      [] :: splitBTF f (rest.drop 2)
    else
      match splitBTF f rest with
      | s :: ss => (c :: s) :: ss
      | [] => [[c]]

/-- Python `s.split('```')` over character lists. -/
def splitBT (l : List Char) : List (List Char) := splitBTF l.length l

/-- Python `needle in hay` containment test on character lists. -/
def listContains : List Char → List Char → Bool
  | hay, needle =>
    needle.isPrefixOf hay ||
      match hay with
      | [] => false
      | _ :: t => listContains t needle

/-- Python `str.lower()` (ASCII case folding suffices for the data the
source handles). -/
def lowerStr (s : String) : String := ⟨s.data.map Char.toLower⟩

/-! ### JSON values and Python-dict operations -/

/-- JSON values as produced by `json.loads`; numbers are rationals (the
source only compares and arranges them, so no float rounding is claimed). -/
inductive Json where
  | null : Json
  | bool : Bool → Json
  | num : Rat → Json
  | str : String → Json
  | arr : List Json → Json
  | obj : List (String × Json) → Json

/-- Python `j == s` comparison of a JSON-derived value against a string
literal (non-strings never equal a string). -/
def jeqStr (j : Json) (s : String) : Bool :=
  match j with
  | Json.str t => t = s
  | _ => false

/-- A Python dict with string keys, as an insertion-ordered association
list with unique keys (the shape `json.loads` and the tool-input objects
produce). -/
abbrev PyDict := List (String × Json)

/-- Python `d[k] = v`: overwrite the binding in place, or append. -/
def dset (l : PyDict) (k : String) (v : Json) : PyDict :=
  match l with
  | [] => [(k, v)]
  | (k', v') :: rest => if k' = k then (k, v) :: rest else (k', v') :: dset rest k v

/-- Python `d.get(k)` / `k in d` lookup. -/
def jget (l : PyDict) (k : String) : Option Json :=
  match l with
  | [] => none
  | (k', v) :: rest => if k' = k then some v else jget rest k

/-- Python truthiness of a JSON-derived value. -/
def jtruthy : Json → Bool
  | Json.null => false
  | Json.bool b => b
  | Json.num q => q ≠ 0
  | Json.str s => s ≠ ""
  | Json.arr xs => ¬ xs.isEmpty
  | Json.obj kvs => ¬ kvs.isEmpty

/-- Python `str(...)` rendering of a JSON-derived value, as interpolated
into f-strings by the source.  Containers are abbreviated: no claim
depends on their rendering. -/
def pyStr : Json → String
  | Json.null => "None"
  | Json.bool true => "True"
  | Json.bool false => "False"
  | Json.num q => if q.den = 1 then toString q.num else toString q
  | Json.str s => s
  | Json.arr _ => "[...]"
  | Json.obj _ => "\x7b...\x7d"

/-- Python `str(...)` of an optional value (`None` when absent). -/
def pyStrOpt : Option Json → String
  | none => "None"
  | some v => pyStr v

/-- Truthiness of an optional JSON value (`None` is falsy). -/
def optTruthy : Option Json → Bool
  | none => false
  | some v => jtruthy v

/-! ### An executable model of `json.loads`

Fuel-indexed recursive-descent parser for JSON.  It covers the JSON
fragment exchanged with the reasoning engine (null, booleans, numbers,
strings with escapes, arrays, objects with later duplicate keys
overwriting earlier ones, exactly as Python dicts behave). -/

/-- Skip JSON whitespace. -/
def skipWsL : List Char → List Char
  | [] => []
  | c :: r => if c = ' ' ∨ c = '\t' ∨ c = '\n' ∨ c = '\r' then skipWsL r else c :: r

/-- Value of a hexadecimal digit. -/
def hexVal (c : Char) : Option Nat :=
  if '0' ≤ c ∧ c ≤ '9' then some (c.toNat - 48)
  else if 'a' ≤ c ∧ c ≤ 'f' then some (c.toNat - 87)
  else if 'A' ≤ c ∧ c ≤ 'F' then some (c.toNat - 55)
  else none

/-- Parse the body of a JSON string (after the opening quote), returning
the decoded characters and the remaining input. -/
def parseJStr : Nat → List Char → Option (List Char × List Char)
  | 0, _ => none
  | _ + 1, [] => none
  | f + 1, c :: r =>
    if c = '"' then some ([], r)
    else if c = '\\' then
      match r with
      | [] => none
      | e :: r2 =>
        if e = '"' ∨ e = '\\' ∨ e = '/' then
          (fun p => (e :: p.1, p.2)) <$> parseJStr f r2
        else if e = 'n' then (fun p => ('\n' :: p.1, p.2)) <$> parseJStr f r2
        else if e = 't' then (fun p => ('\t' :: p.1, p.2)) <$> parseJStr f r2
        else if e = 'r' then (fun p => ('\r' :: p.1, p.2)) <$> parseJStr f r2
        else if e = 'b' then (fun p => (Char.ofNat 8 :: p.1, p.2)) <$> parseJStr f r2
        else if e = 'f' then (fun p => (Char.ofNat 12 :: p.1, p.2)) <$> parseJStr f r2
        else if e = 'u' then
          match r2 with
          | h1 :: h2 :: h3 :: h4 :: r3 =>
            match hexVal h1, hexVal h2, hexVal h3, hexVal h4 with
            | some a, some b, some c2, some d =>
              (fun p => (Char.ofNat (((a * 16 + b) * 16 + c2) * 16 + d) :: p.1, p.2)) <$>
                parseJStr f r3
            | _, _, _, _ => none
          | _ => none
        else none
    else if c.toNat < 32 then none
    else (fun p => (c :: p.1, p.2)) <$> parseJStr f r

/-- Numeric value of a digit list. -/
def digitsVal (ds : List Char) : Nat :=
  ds.foldl (fun a c => a * 10 + (c.toNat - 48)) 0

/-- Powers of ten, by direct recursion so that concrete parses reduce. -/
def pow10 : Nat → Rat
  | 0 => 1
  | n + 1 => 10 * pow10 n

/-- Parse a JSON number. -/
def parseJNum (cs : List Char) : Option (Rat × List Char) :=
  let p := match cs with
    | c :: r => if c = '-' then (true, r) else (false, cs)
    | [] => (false, cs)
  let neg := p.1
  let cs1 := p.2
  let ip := cs1.takeWhile Char.isDigit
  if ip.isEmpty then none else
  let cs2 := cs1.drop ip.length
  let q := match cs2 with
    | c :: r =>
      if c = '.' then
        let ds := r.takeWhile Char.isDigit
        (ds, r.drop ds.length, !ds.isEmpty)
      else ([], cs2, true)
    | [] => ([], cs2, true)
  let fp := q.1
  let cs3 := q.2.1
  if q.2.2 = false then none else
  let w := match cs3 with
    | c :: r =>
      if c = 'e' ∨ c = 'E' then
        let s := match r with
          | d :: r3 => if d = '+' then ((1 : Int), r3) else if d = '-' then (-1, r3) else (1, r)
          | [] => (1, r)
        let ds := s.2.takeWhile Char.isDigit
        if ds.isEmpty then ((0 : Int), cs3, false)
        else (s.1 * (digitsVal ds : Int), s.2.drop ds.length, true)
      else ((0 : Int), cs3, true)
    | [] => ((0 : Int), cs3, true)
  if w.2.2 = false then none else
  let mantissa : Rat :=
    (digitsVal ip : Rat) + (if fp.isEmpty then 0 else (digitsVal fp : Rat) / pow10 fp.length)
  let scaled : Rat := if w.1 ≥ 0 then mantissa * pow10 w.1.toNat else mantissa / pow10 (-w.1).toNat
  some ((if neg then -scaled else scaled), w.2.1)

mutual

/-- Parse one JSON value. -/
def parseJVal : Nat → List Char → Option (Json × List Char)
  | 0, _ => none
  | f + 1, cs =>
    match skipWsL cs with
    | [] => none
    | c :: r =>
      if c = 'n' then
        match r with
        | 'u' :: 'l' :: 'l' :: r2 => some (Json.null, r2)
        | _ => none
      else if c = 't' then
        match r with
        | 'r' :: 'u' :: 'e' :: r2 => some (Json.bool true, r2)
        | _ => none
      else if c = 'f' then
        match r with
        | 'a' :: 'l' :: 's' :: 'e' :: r2 => some (Json.bool false, r2)
        | _ => none
      else if c = '"' then
        (fun p => (Json.str ⟨p.1⟩, p.2)) <$> parseJStr (f + 1) r
      else if c = '[' then
        match skipWsL r with
        | ']' :: r2 => some (Json.arr [], r2)
        | r2 => parseJElems f r2 []
      else if c = lbrace then
        match skipWsL r with
        | c2 :: r2 => if c2 = rbrace then some (Json.obj [], r2) else parseJMembers f (c2 :: r2) []
        | [] => none
      else (fun p => (Json.num p.1, p.2)) <$> parseJNum (c :: r)

/-- Parse the elements of a JSON array after the opening bracket. -/
def parseJElems : Nat → List Char → List Json → Option (Json × List Char)
  | 0, _, _ => none
  | f + 1, cs, acc =>
    match parseJVal f cs with
    | none => none
    | some (v, r) =>
      match skipWsL r with
      | ',' :: r2 => parseJElems f r2 (acc ++ [v])
      | ']' :: r2 => some (Json.arr (acc ++ [v]), r2)
      | _ => none

/-- Parse the members of a JSON object after the opening brace; duplicate
keys overwrite, as in Python dicts. -/
def parseJMembers : Nat → List Char → PyDict → Option (Json × List Char)
  | 0, _, _ => none
  | f + 1, cs, acc =>
    match skipWsL cs with
    | [] => none
    | c :: r =>
      if c = '"' then
        match parseJStr (f + 1) r with
        | none => none
        | some (k, r2) =>
          match skipWsL r2 with
          | ':' :: r3 =>
            match parseJVal f r3 with
            | none => none
            | some (v, r4) =>
              let acc2 := dset acc ⟨k⟩ v
              match skipWsL r4 with
              | ',' :: r5 => parseJMembers f r5 acc2
              | c2 :: r5 => if c2 = rbrace then some (Json.obj acc2, r5) else none
              | [] => none
          | _ => none
      else none

end

/-- Model of `json.loads`: parse a whole string as one JSON value. -/
def jsonParse (s : String) : Option Json :=
  match parseJVal (s.data.length + 1) s.data with
  | some (v, r) => if (skipWsL r).isEmpty then some v else none
  | none => none

/-! ### Session store (`conversations`, `get_conversation`,
`add_to_conversation`, `update_context`)

The Python module-level dict `conversations` maps session ids to
`{'messages': [...], 'context': {...}, 'last_active': now}`.  We embed it
as a function from ids to optional sessions and pass the current time
(`time.time()`) explicitly; ages use truncated `Nat` subtraction, which
agrees with the Python comparison `now - last_active > TIMEOUT` whenever
the clock is monotone. -/

/-- One stored chat turn `{'role': ..., 'content': ...}`. -/
structure Msg where
  role : String
  content : String
deriving DecidableEq

/-- One session record of the `conversations` store. -/
structure Conv where
  messages : List Msg
  context : PyDict
  last_active : Nat

/-- The `conversations` table. -/
abbrev Convs := String → Option Conv

/-- `SESSION_TIMEOUT = 30 * 60` seconds. -/
def SESSION_TIMEOUT : Nat := 30 * 60

/-- The expiry sweep at the top of `get_conversation`: drop every session
whose age exceeds the timeout. -/
def sweepConvs (now : Nat) (cs : Convs) : Convs :=
  fun s => (cs s).bind fun d => if now - d.last_active > SESSION_TIMEOUT then none else some d

/-- Store a session under an id. -/
def setConv (sid : String) (c : Conv) (cs : Convs) : Convs :=
  fun s => if s = sid then some c else cs s

/-- `get_conversation(session_id)`: sweep expired sessions, then return the
session for the id, creating an empty one if absent, refreshing
`last_active` otherwise.  Returns the updated store and the live session. -/
def get_conversation (now : Nat) (sid : String) (cs : Convs) : Convs × Conv :=
  let swept := sweepConvs now cs
  match swept sid with
  | none =>
    let c : Conv := ⟨[], [], now⟩
    (setConv sid c swept, c)
  | some d =>
    let c : Conv := { d with last_active := now }
    (setConv sid c swept, c)

/-- The history cap in `add_to_conversation`: keep only the last 20
entries (`messages[-20:]`) once the list exceeds 20. -/
def trimMsgs (ms : List Msg) : List Msg :=
  if ms.length > 20 then ms.drop (ms.length - 20) else ms

/-- `add_to_conversation(session_id, role, content)`. -/
def add_to_conversation (now : Nat) (sid role content : String) (cs : Convs) : Convs :=
  let p := get_conversation now sid cs
  setConv sid { p.2 with messages := trimMsgs (p.2.messages ++ [⟨role, content⟩]) } p.1

/-- Python `dict.update`: merge the update dict into the base, new keys
overwriting, others persisting. -/
def dictUpdate (base upd : PyDict) : PyDict :=
  upd.foldl (fun b p => dset b p.1 p.2) base

/-- `update_context(session_id, context_update)`. -/
def update_context (now : Nat) (sid : String) (upd : PyDict) (cs : Convs) : Convs :=
  let p := get_conversation now sid cs
  setConv sid { p.2 with context := dictUpdate p.2.context upd } p.1

/-! ### Tool layer (`tool_search_people`, `tool_get_client_detail`,
`tool_get_spend_summary`, `execute_tool`)

Each tool wraps its whole body in `try/except Exception`, returning
`{'error': str(e)}` on failure.  The Airtable store behind `requests.get`
is an oracle: either a list of already-field-resolved records, or a raised
exception carried as `Except.error`.  Currency fields arrive through
`parse_currency`, so records here carry the parsed rational amounts. -/

/-- A People-table record with the fields the source reads (`Name` with
`Full name` fallback already resolved, `Email Address`, `Phone Number`,
`Client Link`, `Active`). -/
structure PersonRec where
  name : String
  email : String
  phone : String
  clientLink : String
  active : Bool
deriving DecidableEq

/-- A Clients-table record with the fields the source reads, currency
values already through `parse_currency`. -/
structure ClientRec where
  code : String
  name : String
  yearEnd : String
  currentQuarter : String
  monthlyCommitted : Rat
  quarterlyCommitted : Rat
  thisMonth : Rat
  thisQuarter : Rat
  rolloverCredit : Rat
  rolloverUse : String
  janMar : Rat
  aprJun : Rat
  julSep : Rat
  octDec : Rat

/-- The Airtable data-store oracle: each table read either yields records
or raises (network, HTTP status, malformed payload …). -/
structure Store where
  people : Except String (List PersonRec)
  clients : Except String (List ClientRec)

/-- JSON rendering of one person in `tool_search_people` results. -/
def personJson (r : PersonRec) : Json :=
  Json.obj [("name", Json.str r.name), ("email", Json.str r.email),
            ("phone", Json.str r.phone), ("clientCode", Json.str r.clientLink)]

/-- Is this JSON-derived value not a Python `str`?  (`search_term.lower()`
raises on truthy non-strings.) -/
def jNonStr (j : Json) : Bool :=
  match j with
  | Json.str _ => false
  | _ => true

/-- The record scan inside `tool_search_people`. -/
def tool_search_people_core (client_code search_term : Option Json) (active_only : Bool)
    (recs : List PersonRec) : PyDict :=
  let filtered := recs.filter fun r =>
    (if optTruthy client_code then r.clientLink = pyStr ((client_code).getD Json.null) else true)
      && (if active_only then r.active else true)
  let people := filtered.filterMap fun r =>
    if r.name = "" then none
    else if optTruthy search_term then
      if listContains (lowerStr (r.name ++ " " ++ r.email)).data
          (lowerStr (pyStr (search_term.getD Json.null))).data then some r else none
    else some r
  [("count", Json.num people.length), ("people", Json.arr (people.map personJson))]

/-- `tool_search_people(client_code, search_term, active_only)`: filter by
client and active flag (Airtable formula), skip nameless records, filter
by the lowered search term over name and email, and return
`{'count': n, 'people': [...]}`; any raised exception becomes
`{'error': str(e)}`.  A truthy non-string `search_term` raises on
`.lower()` inside the scan. -/
def tool_search_people (client_code search_term : Option Json) (active_only : Bool)
    (db : Except String (List PersonRec)) : PyDict :=
  match db with
  | Except.error e => [("error", Json.str e)]
  | Except.ok recs =>
    if optTruthy search_term && jNonStr (search_term.getD Json.null) then
      [("error", Json.str "no attribute lower")]
    else
      tool_search_people_core client_code search_term active_only recs

/-- `tool_get_client_detail(client_code)`: look up the client record by
code; absent records yield `{'error': 'Client <code> not found'}`. -/
def tool_get_client_detail (client_code : Option Json)
    (db : Except String (List ClientRec)) : PyDict :=
  match db with
  | Except.error e => [("error", Json.str e)]
  | Except.ok recs =>
    match recs.find? (fun r => match client_code with
        | some (Json.str s) => r.code = s
        | _ => false) with
    | none => [("error", Json.str ("Client " ++ pyStrOpt client_code ++ " not found"))]
    | some r =>
      [("code", client_code.getD Json.null),
       ("name", Json.str r.name),
       ("yearEnd", Json.str r.yearEnd),
       ("currentQuarter", Json.str r.currentQuarter),
       ("monthlyCommitted", Json.num r.monthlyCommitted),
       ("quarterlyCommitted", Json.num r.quarterlyCommitted),
       ("thisMonth", Json.num r.thisMonth),
       ("thisQuarter", Json.num r.thisQuarter),
       ("rolloverCredit", Json.num r.rolloverCredit)]

/-- The calendar-quarter column for a month number. -/
def calQuarter (m : Nat) : String :=
  if m ≤ 3 then "JAN-MAR" else if m ≤ 6 then "APR-JUN"
  else if m ≤ 9 then "JUL-SEP" else "OCT-DEC"

/-- The previous calendar quarter. -/
def prevQuarter (q : String) : String :=
  if q = "JAN-MAR" then "OCT-DEC" else if q = "APR-JUN" then "JAN-MAR"
  else if q = "JUL-SEP" then "APR-JUN" else "JUL-SEP"

/-- `client_info.get(quarter_key, 0)` for the pre-calculated quarter
spend columns. -/
def quarterSpend (ci : ClientRec) (q : String) : Rat :=
  if q = "JAN-MAR" then ci.janMar else if q = "APR-JUN" then ci.aprJun
  else if q = "JUL-SEP" then ci.julSep else if q = "OCT-DEC" then ci.octDec else 0

/-- Python `round` on a rational: round half to even. -/
def pyRound (q : Rat) : Int :=
  let f := ⌊q⌋
  let r := q - f
  if r < 1 / 2 then f else if 1 / 2 < r then f + 1
  else if f % 2 = 0 then f else f + 1

/-- `int(current_quarter.replace('Q', '') or 1)`: strip every `Q`, parse
the remaining digits, with the empty string defaulting to 1; a non-digit
remainder raises `ValueError`. -/
def pyQuarterNum (s : String) : Option Int :=
  let ds := s.data.filter (· ≠ 'Q')
  if ds.isEmpty then some 1
  else if ds.all Char.isDigit then some (digitsVal ds : Int) else none

/-- English month name, for `now.strftime('%B')`. -/
def monthName (m : Nat) : String :=
  if m = 1 then "January" else if m = 2 then "February" else if m = 3 then "March"
  else if m = 4 then "April" else if m = 5 then "May" else if m = 6 then "June"
  else if m = 7 then "July" else if m = 8 then "August" else if m = 9 then "September"
  else if m = 10 then "October" else if m = 11 then "November" else "December"

/-- The quarterly result dict at the end of `tool_get_spend_summary`. -/
def spendQuarterResult (client_code : Option Json) (ci : ClientRec)
    (qk label : String) : PyDict :=
  let spent := quarterSpend ci qk
  let base := ci.monthlyCommitted * 3
  let applied := ci.rolloverUse = qk ∧ ci.rolloverCredit > 0
  let budget := if applied then base + ci.rolloverCredit else base
  [("client", Json.str ci.name),
   ("clientCode", client_code.getD Json.null),
   ("period", Json.str label),
   ("budget", Json.num budget),
   ("spent", Json.num spent),
   ("remaining", Json.num (budget - spent)),
   ("percentUsed", Json.num (if budget > 0 then (pyRound (spent / budget * 100) : Rat) else (pyRound 0 : Rat))),
   ("rolloverApplied", Json.bool (decide applied)),
   ("rolloverAmount", Json.num (if ci.rolloverUse = qk then ci.rolloverCredit else 0))]

/-- `tool_get_spend_summary(client_code, period)`: resolve the client,
map the period to a quarter column (or the monthly columns for
`'this_month'`), and report budget, spend and rollover; exceptions and a
missing client become `{'error': ...}`. -/
def tool_get_spend_summary (client_code : Option Json) (period : Json) (nowMonth : Nat)
    (db : Except String (List ClientRec)) : PyDict :=
  match db with
  | Except.error e => [("error", Json.str e)]
  | Except.ok recs =>
    match recs.find? (fun r => match client_code with
        | some (Json.str s) => r.code = s
        | _ => false) with
    | none => [("error", Json.str ("Client " ++ pyStrOpt client_code ++ " not found"))]
    | some ci =>
      let curQ := calQuarter nowMonth
      if jeqStr period "this_quarter" then
        spendQuarterResult client_code ci curQ ci.currentQuarter
      else if jeqStr period "last_quarter" then
        match pyQuarterNum ci.currentQuarter with
        | none => [("error", Json.str "invalid literal for int() with base 10")]
        | some n =>
          let lastQnum := if n > 1 then n - 1 else 4
          spendQuarterResult client_code ci (prevQuarter curQ) ("Q" ++ toString lastQnum)
      else if jeqStr period "JAN-MAR" ∨ jeqStr period "APR-JUN"
          ∨ jeqStr period "JUL-SEP" ∨ jeqStr period "OCT-DEC" then
        spendQuarterResult client_code ci (pyStr period) (pyStr period)
      else if jeqStr period "this_month" then
        [("client", Json.str ci.name),
         ("clientCode", client_code.getD Json.null),
         ("period", Json.str (monthName nowMonth)),
         ("budget", Json.num ci.monthlyCommitted),
         ("spent", Json.num ci.thisMonth),
         ("remaining", Json.num (ci.monthlyCommitted - ci.thisMonth)),
         ("percentUsed", Json.num (if ci.monthlyCommitted > 0
            then (pyRound (ci.thisMonth / ci.monthlyCommitted * 100) : Rat)
            else (pyRound 0 : Rat)))]
      else
        spendQuarterResult client_code ci curQ ci.currentQuarter

/-- The input object of one tool call. -/
abbrev ToolInput := PyDict

/-- `execute_tool(tool_name, tool_input)`: dispatch to the registered
tool, with `{'error': 'Unknown tool: <name>'}` for unregistered names.
`period` defaults to `'this_month'` via `tool_input.get('period',
'this_month')`. -/
def execute_tool (nowMonth : Nat) (store : Store) (tool_name : String) (inp : ToolInput) : PyDict :=
  if tool_name = "search_people" then
    tool_search_people (jget inp "client_code") (jget inp "search_term") true store.people
  else if tool_name = "get_client_detail" then
    tool_get_client_detail (jget inp "client_code") store.clients
  else if tool_name = "get_spend_summary" then
    tool_get_spend_summary (jget inp "client_code")
      ((jget inp "period").getD (Json.str "this_month")) nowMonth store.clients
  else [("error", Json.str ("Unknown tool: " ++ tool_name))]

/-! ### The `/claude/parse` endpoint (`claude_parse`)

The Flask handler becomes a pure function over the session store,
parameterised by oracles for the two reasoning-engine invocations and the
data store.  The outbound prompt text (system instructions, client roster,
context and permission hints) and the `might_need_tools` keyword gate only
shape the request the engine oracle answers, so they do not appear in the
model; everything the handler observes of the engine is in the oracle's
response.  The result records, besides status and body, the messages of
the Round-1 request, how many engine invocations occurred, and each
`execute_tool` execution with its (rewritten) input — a transparent trace
of exactly what the handler does. -/

/-- One content block of an engine response. -/
inductive Block where
  | text : String → Block
  | tool_use : String → ToolInput → String → Block
  | other : Block

/-- One reasoning-engine response. -/
structure EngineResp where
  stop_reason : String
  content : List Block

/-- The engine oracle: the Round-1 and Round-2 invocations each either
return a response or raise (network/HTTP failure). -/
structure Engine where
  round1 : Except String EngineResp
  round2 : Except String EngineResp

/-- The request body of `/claude/parse`; a missing `question` arrives as
`''` via `data.get('question', '')`, a missing `sessionId` as `none`
(defaulted below), `userMode` as `'hunch'`. -/
structure Req where
  question : String
  sessionIdOpt : Option String
  userMode : String
  userClient : Option String
  trackerAccess : Bool

/-- `data.get('sessionId', 'default')`. -/
def Req.sessionId (r : Req) : String := r.sessionIdOpt.getD "default"

/-- Python truthiness of the `userClient` value. -/
def clientTruthy : Option String → Bool
  | none => false
  | some s => s ≠ ""

/-- The observable outcome of one `/claude/parse` request. -/
structure ParseResult where
  status : Nat
  parsed : Option Json
  error : Option String
  round1Messages : Option (List Msg)
  engineCalls : Nat
  executedTools : List (String × ToolInput)
  toolOutputs : List PyDict

/-- Python `history[-10:]`: the ten most recent stored messages. -/
def lastTen (l : List Msg) : List Msg := l.drop (l.length - 10)

/-- The client-permission rewrite applied to each tool call before
execution: in client mode with a bound client, an existing `client_code`
key is overwritten with the bound code, and for `get_client_detail` /
`get_spend_summary` the bound code is injected even when absent. -/
def rewriteToolInput (user_mode : String) (user_client : Option String)
    (tool_name : String) (inp : ToolInput) : ToolInput :=
  if user_mode = "client" ∧ clientTruthy user_client then
    match user_client with
    | some uc =>
      if (jget inp "client_code").isSome then dset inp "client_code" (Json.str uc)
      else if tool_name = "get_client_detail" ∨ tool_name = "get_spend_summary" then
        dset inp "client_code" (Json.str uc)
      else inp
    | none => inp
  else inp

/-- The first text block's text, or `''` (the extraction loop over
`content_blocks`). -/
def firstText : List Block → String
  | [] => ""
  | Block.text t :: _ => t
  | _ :: r => firstText r

/-- The fence-stripping cleanup before `json.loads`: strip, cut at
triple-backtick fences keeping segment 1, drop a leading `json` tag,
strip again. -/
def cleanMessage (s : String) : String :=
  let c := stripChars s.data
  let c :=
    if ("```".data).isPrefixOf c then
      let seg := (splitBT c).getD 1 []
      if ("json".data).isPrefixOf seg then seg.drop 4 else seg
    else c
  ⟨stripChars c⟩

/-- The assistant-summary turn recorded on success:
`"Parsed: <coreRequest> for <modifiers.client or 'no client'>"`. -/
def summaryText (kvs : PyDict) (clientOpt : Option Json) : String :=
  "Parsed: " ++ pyStrOpt (jget kvs "coreRequest") ++ " for "
    ++ (match clientOpt with
        | some v => pyStr v
        | none => "no client")

/-- Placeholder text of the `AttributeError` raised when `.get` is called
on a non-dict parsed value; only its occurrence, not its wording, is
modelled. -/
def attrErrMsg : String := "AttributeError: no attribute get"

/-- The tail of the handler after the final content blocks are known: JSON
cleanup and parsing, then on success the history appends and the context
merge, and on `json.JSONDecodeError` the soft-failure body. -/
def finishParse (now : Nat) (sid question : String) (blocks : List Block) (calls : Nat)
    (execs : List (String × ToolInput)) (outs : List PyDict) (messages1 : List Msg)
    (cs1 : Convs) : ParseResult × Convs :=
  match jsonParse (cleanMessage (firstText blocks)) with
  | none =>
    (⟨200, none, some "Could not parse response", some messages1, calls, execs, outs⟩, cs1)
  | some parsed =>
    let cs2 := add_to_conversation now sid "user" question cs1
    match parsed with
    | Json.obj kvs =>
      match (jget kvs "modifiers").getD (Json.obj []) with
      | Json.obj mkvs =>
        let clientOpt := jget mkvs "client"
        let cs3 := add_to_conversation now sid "assistant" (summaryText kvs clientOpt) cs2
        let cs4 := match clientOpt with
          | some v => if jtruthy v then update_context now sid [("lastClient", v)] cs3 else cs3
          | none => cs3
        (⟨200, some parsed, none, some messages1, calls, execs, outs⟩, cs4)
      | _ => (⟨500, none, some attrErrMsg, some messages1, calls, execs, outs⟩, cs2)
    | _ => (⟨500, none, some attrErrMsg, some messages1, calls, execs, outs⟩, cs2)

/-- `claude_parse`: validate, fetch the session, run Round 1, on a
`tool_use` stop reason rewrite and execute each requested tool and run
Round 2, then parse the final text and update session state. -/
def claude_parse (apiKey : Bool) (now nowMonth : Nat) (eng : Engine) (store : Store)
    (req : Req) (cs : Convs) : ParseResult × Convs :=
  if req.question = "" then
    (⟨400, none, some "No question provided", none, 0, [], []⟩, cs)
  else if apiKey = false then
    (⟨500, none, some "Anthropic API not configured", none, 0, [], []⟩, cs)
  else
    let sid := req.sessionId
    let p := get_conversation now sid cs
    let cs1 := p.1
    let messages1 := lastTen p.2.messages ++ [⟨"user", req.question⟩]
    match eng.round1 with
    | Except.error e => (⟨500, none, some e, some messages1, 1, [], []⟩, cs1)
    | Except.ok r1 =>
      if r1.stop_reason = "tool_use" then
        let execs := r1.content.filterMap fun b =>
          match b with
          | Block.tool_use nm inp _ =>
            some (nm, rewriteToolInput req.userMode req.userClient nm inp)
          | _ => none
        let outs := execs.map fun p2 => execute_tool nowMonth store p2.1 p2.2
        match eng.round2 with
        | Except.error e => (⟨500, none, some e, some messages1, 2, execs, outs⟩, cs1)
        | Except.ok r2 => finishParse now sid req.question r2.content 2 execs outs messages1 cs1
      else
        finishParse now sid req.question r1.content 1 [] [] messages1 cs1

/-! ### Dictionary lemmas -/

theorem jget_dset_self (l : PyDict) (k : String) (v : Json) :
    jget (dset l k v) k = some v := by
  induction l with
  | nil => simp [dset, jget]
  | cons p rest ih =>
    obtain ⟨k', v'⟩ := p
    by_cases h : k' = k
    · simp [dset, jget, h]
    · simp [dset, jget, h, ih]

theorem jget_dset_ne (l : PyDict) (k k' : String) (v : Json) (h : k' ≠ k) :
    jget (dset l k v) k' = jget l k' := by
  induction l with
  | nil => simp [dset, jget, Ne.symm h]
  | cons p rest ih =>
    obtain ⟨k0, v0⟩ := p
    by_cases h0 : k0 = k
    · subst h0
      simp [dset, jget, Ne.symm h]
    · simp [dset, jget, h0, ih]

theorem jget_dictUpdate (b u : PyDict) (k : String) :
    jget (dictUpdate b u) k
      = (match jget u.reverse k with
         | some v => some v
         | none => jget b k) := by
  induction u using List.reverseRecOn generalizing b with
  | nil => simp [dictUpdate, jget]
  | append_singleton u p ih =>
    obtain ⟨k0, v0⟩ := p
    have hfold : dictUpdate b (u ++ [(k0, v0)]) = dset (dictUpdate b u) k0 v0 := by
      simp [dictUpdate, List.foldl_append]
    rw [hfold]
    by_cases h : k = k0
    · subst h
      simp [jget_dset_self, jget]
    · rw [jget_dset_ne _ _ _ _ h]
      simp only [List.reverse_append, List.reverse_singleton, List.singleton_append, jget]
      rw [if_neg (fun hh => h hh.symm)]
      exact ih b

/-! ### Session-store lemmas -/

theorem get_conversation_fst (now : Nat) (sid : String) (cs : Convs) :
    (get_conversation now sid cs).1
      = setConv sid (get_conversation now sid cs).2 (sweepConvs now cs) := by
  unfold get_conversation
  cases h : sweepConvs now cs sid <;> simp [h]

theorem sweepConvs_eq_none (now : Nat) (cs : Convs) (s : String) (d : Conv)
    (h : cs s = some d) (hex : now - d.last_active > SESSION_TIMEOUT) :
    sweepConvs now cs s = none := by
  simp [sweepConvs, h, hex]

theorem sweepConvs_eq_some (now : Nat) (cs : Convs) (s : String) (d : Conv)
    (h : cs s = some d) (hlive : now - d.last_active ≤ SESSION_TIMEOUT) :
    sweepConvs now cs s = some d := by
  simp [sweepConvs, h]
  omega

/-- C4.  Every call to `get_conversation` first sweeps every other session
whose age exceeds the 30-minute timeout and keeps every other live
session; a session for the requested id accessed within the timeout is
retained with `last_active` refreshed to the current time; an absent or
just-swept id yields a fresh session with empty messages and context. -/
theorem get_conversation_spec (now : Nat) (sid : String) (cs : Convs) :
    (∀ s d, s ≠ sid → cs s = some d → now - d.last_active > SESSION_TIMEOUT →
        (get_conversation now sid cs).1 s = none)
    ∧ (∀ s d, s ≠ sid → cs s = some d → now - d.last_active ≤ SESSION_TIMEOUT →
        (get_conversation now sid cs).1 s = some d)
    ∧ (∀ d, cs sid = some d → now - d.last_active ≤ SESSION_TIMEOUT →
        (get_conversation now sid cs).2 = { d with last_active := now }
          ∧ (get_conversation now sid cs).1 sid = some { d with last_active := now })
    ∧ ((cs sid = none ∨ ∃ d, cs sid = some d ∧ now - d.last_active > SESSION_TIMEOUT) →
        (get_conversation now sid cs).2 = (⟨[], [], now⟩ : Conv)
          ∧ (get_conversation now sid cs).1 sid = some (⟨[], [], now⟩ : Conv)) := by
  refine ⟨?_, ?_, ?_, ?_⟩
  · intro s d hs h hex
    rw [get_conversation_fst]
    simp [setConv, hs]
    exact sweepConvs_eq_none now cs s d h hex
  · intro s d hs h hlive
    rw [get_conversation_fst]
    simp [setConv, hs]
    exact sweepConvs_eq_some now cs s d h hlive
  · intro d h hlive
    have hs := sweepConvs_eq_some now cs sid d h hlive
    constructor
    · unfold get_conversation
      simp [hs]
    · rw [get_conversation_fst]
      unfold get_conversation
      simp [setConv, hs]
  · intro h
    have hs : sweepConvs now cs sid = none := by
      rcases h with h | ⟨d, h, hex⟩
      · simp [sweepConvs, h]
      · exact sweepConvs_eq_none now cs sid d h hex
    constructor
    · unfold get_conversation
      simp [hs]
    · rw [get_conversation_fst]
      unfold get_conversation
      simp [setConv, hs]

/-- Witness for C4 at concrete inputs: at time 4000 with sessions aged 2200
seconds (expired) and 400 seconds (live), the expired one is swept, the
live requested one is retained and refreshed, and an absent id is created
fresh. -/
theorem get_conversation_spec_witness :
    (let old : Conv := ⟨[⟨"user", "hi"⟩], [], 1800⟩
     let fresh : Conv := ⟨[⟨"user", "yo"⟩], [], 3600⟩
     let cs : Convs := fun s => if s = "a" then some old else if s = "b" then some fresh else none
     (get_conversation 4000 "b" cs).1 "a" = none
       ∧ (get_conversation 4000 "b" cs).2 = { fresh with last_active := 4000 }
       ∧ (get_conversation 4000 "b" cs).2.messages = [⟨"user", "yo"⟩]
       ∧ (get_conversation 4000 "c" cs).2 = (⟨[], [], 4000⟩ : Conv)) := by
  refine ⟨?_, ?_, ?_, ?_⟩
  · exact (get_conversation_spec 4000 "b" _).1 "a" _ (by decide) rfl (by decide)
  · exact ((get_conversation_spec 4000 "b" _).2.2.1 _ rfl (by decide)).1
  · rw [((get_conversation_spec 4000 "b" _).2.2.1 _ rfl (by decide)).1]
  · exact ((get_conversation_spec 4000 "c" _).2.2.2 (Or.inl rfl)).1

/-! ### History-cap lemmas (claim C5) -/

/-- The 20 most recent entries of a message list (`messages[-20:]`). -/
def lastTwenty (ms : List Msg) : List Msg := ms.drop (ms.length - 20)

theorem trimMsgs_eq_lastTwenty (ms : List Msg) : trimMsgs ms = lastTwenty ms := by
  unfold trimMsgs lastTwenty
  split
  · rfl
  · have h0 : ms.length - 20 = 0 := by omega
    simp [h0]

theorem drop_sub_append {α : Type} (n : Nat) (x ys : List α) :
    ((x.drop (x.length - n)) ++ ys).drop (((x.drop (x.length - n)) ++ ys).length - n)
      = (x ++ ys).drop ((x ++ ys).length - n) := by
  rcases le_or_lt x.length n with h | h
  · have h0 : x.length - n = 0 := by omega
    simp [h0]
  · have hdx : (x.drop (x.length - n)).length = n := by
      rw [List.length_drop]; omega
    rcases le_or_lt ys.length n with h2 | h2
    · have hL : ((x.drop (x.length - n)) ++ ys).length - n = ys.length := by
        rw [List.length_append, hdx]; omega
      have hR : (x ++ ys).length - n = x.length + ys.length - n := by
        rw [List.length_append]
      rw [hL, hR]
      rw [List.drop_append_of_le_length (by omega : ys.length ≤ (x.drop (x.length - n)).length)]
      rw [List.drop_append_of_le_length (by omega : x.length + ys.length - n ≤ x.length)]
      rw [List.drop_drop]
      have harg : x.length - n + ys.length = x.length + ys.length - n := by omega
      rw [harg]
    · have hL : ((x.drop (x.length - n)) ++ ys).length - n
          = (x.drop (x.length - n)).length + (ys.length - n) := by
        rw [List.length_append, hdx]; omega
      have hR : (x ++ ys).length - n = x.length + (ys.length - n) := by
        rw [List.length_append]; omega
      rw [hL, hR, List.drop_append, List.drop_append]

theorem lastTwenty_lastTwenty_append (x ys : List Msg) :
    lastTwenty (lastTwenty x ++ ys) = lastTwenty (x ++ ys) := by
  unfold lastTwenty
  exact drop_sub_append 20 x ys

/-- One `add_to_conversation` call on a live session appends the turn and
trims to the last twenty entries, leaving context untouched and
refreshing `last_active`. -/
theorem add_to_conversation_live (now : Nat) (sid role content : String) (cs : Convs)
    (d : Conv) (h : cs sid = some d) (hlive : now - d.last_active ≤ SESSION_TIMEOUT) :
    add_to_conversation now sid role content cs sid
      = some ⟨lastTwenty (d.messages ++ [⟨role, content⟩]), d.context, now⟩ := by
  have hc := (get_conversation_spec now sid cs).2.2.1 d h hlive
  unfold add_to_conversation
  rw [hc.1]
  simp [setConv, trimMsgs_eq_lastTwenty]

/-- A sequence of `add_to_conversation` calls, as folded over one request
log. -/
def addMany (now : Nat) (sid : String) (ps : List (String × String)) (cs : Convs) : Convs :=
  ps.foldl (fun acc p => add_to_conversation now sid p.1 p.2 acc) cs

/-- The message entries a request log appends. -/
def msgsOf (ps : List (String × String)) : List Msg := ps.map fun p => ⟨p.1, p.2⟩

/-- C5.  Over any sequence of `add_to_conversation` calls on a live
session whose history respects the cap, the history never exceeds 20
entries and always equals the 20 most recent appended entries in
insertion order (oldest dropped first). -/
theorem add_to_conversation_cap (now : Nat) (sid : String) (ps : List (String × String))
    (cs : Convs) (d : Conv) (h : cs sid = some d)
    (hlive : now - d.last_active ≤ SESSION_TIMEOUT) (hlen : d.messages.length ≤ 20) :
    ∃ d', addMany now sid ps cs sid = some d'
      ∧ d'.messages = lastTwenty (d.messages ++ msgsOf ps)
      ∧ d'.messages.length ≤ 20 := by
  induction ps generalizing cs d with
  | nil =>
    refine ⟨d, h, ?_, hlen⟩
    have h0 : d.messages.length - 20 = 0 := by omega
    simp [lastTwenty, msgsOf, h0]
  | cons p ps ih =>
    have hstep := add_to_conversation_live now sid p.1 p.2 cs d h hlive
    have hlen2 : (lastTwenty (d.messages ++ [⟨p.1, p.2⟩])).length ≤ 20 := by
      unfold lastTwenty
      rw [List.length_drop]
      omega
    have hlive2 : now - (Conv.mk (lastTwenty (d.messages ++ [⟨p.1, p.2⟩])) d.context now).last_active
        ≤ SESSION_TIMEOUT := by
      simp
    obtain ⟨d', hd', hmsgs, hcap⟩ := ih _ _ hstep hlive2 hlen2
    refine ⟨d', hd', ?_, hcap⟩
    rw [hmsgs]
    dsimp only
    rw [lastTwenty_lastTwenty_append]
    simp [msgsOf, List.append_assoc]

/-- The 22-turn request log of eleven user/assistant exchanges. -/
def elevenExchanges : List (String × String) :=
  [("user", "q1"), ("assistant", "a1"), ("user", "q2"), ("assistant", "a2"),
   ("user", "q3"), ("assistant", "a3"), ("user", "q4"), ("assistant", "a4"),
   ("user", "q5"), ("assistant", "a5"), ("user", "q6"), ("assistant", "a6"),
   ("user", "q7"), ("assistant", "a7"), ("user", "q8"), ("assistant", "a8"),
   ("user", "q9"), ("assistant", "a9"), ("user", "q10"), ("assistant", "a10"),
   ("user", "q11"), ("assistant", "a11")]

/-- An initial store with one fresh empty session `"x"`. -/
def oneEmptySession : Convs :=
  fun s => if s = "x" then some ⟨[], [], 0⟩ else none

/-- Witness for C5: after eleven sequential exchanges on a fresh session,
exactly the latest ten exchanges remain and the first exchange is the one
evicted. -/
theorem add_to_conversation_cap_witness :
    (∃ d', addMany 10 "x" elevenExchanges oneEmptySession "x" = some d'
        ∧ d'.messages = lastTwenty (([] : List Msg) ++ msgsOf elevenExchanges)
        ∧ d'.messages.length ≤ 20)
      ∧ lastTwenty (([] : List Msg) ++ msgsOf elevenExchanges)
          = msgsOf (elevenExchanges.drop 2) :=
  ⟨add_to_conversation_cap 10 "x" elevenExchanges oneEmptySession ⟨[], [], 0⟩ rfl
      (by decide) (by decide),
    by decide⟩

/-! ### Endpoint-unfolding lemmas -/

theorem finishParse_round1Messages (now : Nat) (sid question : String) (blocks : List Block)
    (calls : Nat) (execs : List (String × ToolInput)) (outs : List PyDict)
    (m1 : List Msg) (cs1 : Convs) :
    (finishParse now sid question blocks calls execs outs m1 cs1).1.round1Messages = some m1 := by
  unfold finishParse
  split
  · rfl
  · split
    · split
      · rfl
      · rfl
    · rfl

theorem finishParse_executedTools (now : Nat) (sid question : String) (blocks : List Block)
    (calls : Nat) (execs : List (String × ToolInput)) (outs : List PyDict)
    (m1 : List Msg) (cs1 : Convs) :
    (finishParse now sid question blocks calls execs outs m1 cs1).1.executedTools = execs := by
  unfold finishParse
  split
  · rfl
  · split
    · split
      · rfl
      · rfl
    · rfl

theorem claude_parse_direct (now nowMonth : Nat) (eng : Engine) (store : Store) (req : Req)
    (cs : Convs) (r1 : EngineResp) (hq : req.question ≠ "")
    (h1 : eng.round1 = Except.ok r1) (hsr : r1.stop_reason ≠ "tool_use") :
    claude_parse true now nowMonth eng store req cs
      = finishParse now req.sessionId req.question r1.content 1 [] []
          (lastTen (get_conversation now req.sessionId cs).2.messages
            ++ [⟨"user", req.question⟩])
          (get_conversation now req.sessionId cs).1 := by
  simp [claude_parse, hq, h1, hsr]

theorem claude_parse_tools (now nowMonth : Nat) (eng : Engine) (store : Store) (req : Req)
    (cs : Convs) (r1 r2 : EngineResp) (hq : req.question ≠ "")
    (h1 : eng.round1 = Except.ok r1) (hsr : r1.stop_reason = "tool_use")
    (h2 : eng.round2 = Except.ok r2) :
    claude_parse true now nowMonth eng store req cs
      = finishParse now req.sessionId req.question r2.content 2
          (r1.content.filterMap fun b =>
            match b with
            | Block.tool_use nm inp _ =>
              some (nm, rewriteToolInput req.userMode req.userClient nm inp)
            | _ => none)
          ((r1.content.filterMap fun b =>
            match b with
            | Block.tool_use nm inp _ =>
              some (nm, rewriteToolInput req.userMode req.userClient nm inp)
            | _ => none).map fun p2 => execute_tool nowMonth store p2.1 p2.2)
          (lastTen (get_conversation now req.sessionId cs).2.messages
            ++ [⟨"user", req.question⟩])
          (get_conversation now req.sessionId cs).1 := by
  simp [claude_parse, hq, h1, hsr, h2]

/-- C2 (amended).  A request with an empty or missing question is rejected
with status 400 before anything else happens: no engine call, no tool
execution, and the session store is returned unchanged. -/
theorem claude_parse_validation (apiKey : Bool) (now nowMonth : Nat) (eng : Engine)
    (store : Store) (req : Req) (cs : Convs) (hq : req.question = "") :
    claude_parse apiKey now nowMonth eng store req cs
      = (⟨400, none, some "No question provided", none, 0, [], []⟩, cs) := by
  unfold claude_parse
  rw [if_pos hq]

/-- Witness for C2 at a concrete input: an empty question is rejected with
400, zero engine calls, and an untouched store. -/
theorem claude_parse_validation_witness :
    claude_parse true 0 1
        ⟨Except.ok ⟨"end", [Block.text "hello"]⟩, Except.ok ⟨"end", []⟩⟩
        ⟨Except.ok [], Except.ok []⟩
        ⟨"", some "s1", "hunch", none, true⟩ (fun _ => none)
      = (⟨400, none, some "No question provided", none, 0, [], []⟩, fun _ => none) :=
  claude_parse_validation true 0 1 _ _ _ _ rfl

/-- A request body whose `sessionId` is missing but whose question is
present. -/
def reqNoSession : Req := ⟨"hi", none, "hunch", none, true⟩

/-- An engine that answers round 1 directly with the JSON text of an empty
object. -/
def engineDirectEmpty : Engine :=
  ⟨Except.ok ⟨"end", [Block.text "\x7b\x7d"]⟩, Except.ok ⟨"end", []⟩⟩

/-- An empty data store. -/
def emptyStore : Store := ⟨Except.ok [], Except.ok []⟩

/-- The empty session table. -/
def emptyConvs : Convs := fun _ => none

/-- Counterexample to C2 as stated: a request with a *missing session id*
(but a present question) is not rejected — it gets status 200, the engine
is invoked once, and session state is created under the id `'default'`. -/
theorem claude_parse_missing_session_not_rejected :
    (claude_parse true 0 1 engineDirectEmpty emptyStore reqNoSession emptyConvs).1.status = 200
    ∧ (claude_parse true 0 1 engineDirectEmpty emptyStore reqNoSession emptyConvs).1.engineCalls = 1
    ∧ ((claude_parse true 0 1 engineDirectEmpty emptyStore reqNoSession emptyConvs).2
        "default").isSome = true :=
  ⟨rfl, rfl, rfl⟩

/-- C10.  The Round-1 engine request contains exactly the ten most recent
stored session messages followed by the new question as the final user
turn: it has at most 11 entries, and every entry is either the question
or a stored message at index at least `length - 10`. -/
theorem claude_parse_round1_window (now nowMonth : Nat) (eng : Engine) (store : Store)
    (req : Req) (cs : Convs) (hq : req.question ≠ "") :
    (claude_parse true now nowMonth eng store req cs).1.round1Messages
        = some (lastTen (get_conversation now req.sessionId cs).2.messages
            ++ [⟨"user", req.question⟩])
    ∧ (lastTen (get_conversation now req.sessionId cs).2.messages
        ++ [(⟨"user", req.question⟩ : Msg)]).length ≤ 11
    ∧ (∀ m, m ∈ (lastTen (get_conversation now req.sessionId cs).2.messages
          ++ [(⟨"user", req.question⟩ : Msg)]) →
        m = (⟨"user", req.question⟩ : Msg)
        ∨ ∃ i, (get_conversation now req.sessionId cs).2.messages.length - 10 ≤ i
            ∧ (get_conversation now req.sessionId cs).2.messages[i]? = some m) := by
  refine ⟨?_, ?_, ?_⟩
  · unfold claude_parse
    rw [if_neg hq]
    rw [if_neg (by simp : ¬ (true = false))]
    cases h1 : eng.round1 with
    | error e => rfl
    | ok r1 =>
      by_cases hsr : r1.stop_reason = "tool_use"
      · cases h2 : eng.round2 with
        | error e => simp [hsr]
        | ok r2 => simp [hsr, finishParse_round1Messages]
      · simp [hsr, finishParse_round1Messages]
  · rw [List.length_append]
    unfold lastTen
    rw [List.length_drop]
    simp only [List.length_singleton]
    omega
  · intro m hm
    rcases List.mem_append.1 hm with hL | hR
    · right
      unfold lastTen at hL
      obtain ⟨i, hget⟩ := List.mem_iff_getElem?.1 hL
      rw [List.getElem?_drop] at hget
      exact ⟨_, Nat.le_add_right _ _, hget⟩
    · left
      simpa using hR

/-- A store holding one session `"w"` with twelve stored messages. -/
def twelveMsgConvs : Convs :=
  fun s =>
    if s = "w" then
      some ⟨[⟨"user", "q1"⟩, ⟨"assistant", "a1"⟩, ⟨"user", "q2"⟩, ⟨"assistant", "a2"⟩,
             ⟨"user", "q3"⟩, ⟨"assistant", "a3"⟩, ⟨"user", "q4"⟩, ⟨"assistant", "a4"⟩,
             ⟨"user", "q5"⟩, ⟨"assistant", "a5"⟩, ⟨"user", "q6"⟩, ⟨"assistant", "a6"⟩],
            [], 0⟩
    else none

/-- Witness for C10: a session holding twelve stored messages sends only
the last ten plus the question. -/
theorem claude_parse_round1_window_witness :
    ((claude_parse true 5 1 engineDirectEmpty emptyStore
        ⟨"next", some "w", "hunch", none, true⟩ twelveMsgConvs).1.round1Messages
      = some (lastTen (get_conversation 5 "w" twelveMsgConvs).2.messages
          ++ [⟨"user", "next"⟩])
    ∧ (lastTen (get_conversation 5 "w" twelveMsgConvs).2.messages
        ++ [(⟨"user", "next"⟩ : Msg)]).length ≤ 11
    ∧ (∀ m, m ∈ (lastTen (get_conversation 5 "w" twelveMsgConvs).2.messages
          ++ [(⟨"user", "next"⟩ : Msg)]) →
        m = (⟨"user", "next"⟩ : Msg)
        ∨ ∃ i, (get_conversation 5 "w" twelveMsgConvs).2.messages.length - 10 ≤ i
            ∧ (get_conversation 5 "w" twelveMsgConvs).2.messages[i]? = some m))
    ∧ lastTen (get_conversation 5 "w" twelveMsgConvs).2.messages
        = (get_conversation 5 "w" twelveMsgConvs).2.messages.drop 2 :=
  ⟨claude_parse_round1_window 5 1 engineDirectEmpty emptyStore
      ⟨"next", some "w", "hunch", none, true⟩ twelveMsgConvs (by decide),
    by decide⟩

theorem claude_parse_executedTools (now nowMonth : Nat) (eng : Engine) (store : Store)
    (req : Req) (cs : Convs) (r1 : EngineResp) (hq : req.question ≠ "")
    (h1 : eng.round1 = Except.ok r1) (hsr : r1.stop_reason = "tool_use") :
    (claude_parse true now nowMonth eng store req cs).1.executedTools
      = r1.content.filterMap fun b =>
          match b with
          | Block.tool_use nm inp _ =>
            some (nm, rewriteToolInput req.userMode req.userClient nm inp)
          | _ => none := by
  unfold claude_parse
  rw [if_neg hq]
  rw [if_neg (by simp : ¬ (true = false))]
  cases h1' : eng.round1 with
  | error e => rw [h1'] at h1; cases h1
  | ok r1' =>
    rw [h1'] at h1
    cases h1
    cases h2 : eng.round2 with
    | error e => simp [hsr]
    | ok r2 => simp [hsr, finishParse_executedTools]

/-- C1.  In client-viewer mode with a bound client code, every tool call
whose engine-supplied input carries a `client_code` key is executed with
that key forcibly overwritten to the session's bound code, regardless of
the value the engine supplied. -/
theorem claude_parse_client_rewrite (now nowMonth : Nat) (eng : Engine) (store : Store)
    (req : Req) (cs : Convs) (r1 : EngineResp) (uc : String)
    (hq : req.question ≠ "") (hmode : req.userMode = "client")
    (huc : req.userClient = some uc) (hne : uc ≠ "")
    (h1 : eng.round1 = Except.ok r1) (hsr : r1.stop_reason = "tool_use") :
    ∀ nm inp bid, Block.tool_use nm inp bid ∈ r1.content →
      (jget inp "client_code").isSome = true →
        (nm, dset inp "client_code" (Json.str uc))
            ∈ (claude_parse true now nowMonth eng store req cs).1.executedTools
          ∧ jget (dset inp "client_code" (Json.str uc)) "client_code"
              = some (Json.str uc) := by
  intro nm inp bid hmem hkey
  have hrw : rewriteToolInput req.userMode req.userClient nm inp
      = dset inp "client_code" (Json.str uc) := by
    unfold rewriteToolInput
    rw [hmode, huc]
    rw [if_pos ⟨rfl, by simp [clientTruthy, hne]⟩]
    simp [hkey]
  refine ⟨?_, jget_dset_self inp "client_code" (Json.str uc)⟩
  rw [claude_parse_executedTools now nowMonth eng store req cs r1 hq h1 hsr]
  exact List.mem_filterMap.2 ⟨Block.tool_use nm inp bid, hmem, by simp [hrw]⟩

/-- A client-viewer request bound to client `TOW`. -/
def towReq : Req := ⟨"what did we spend", some "s1", "client", some "TOW", true⟩

/-- An engine whose Round 1 requests `get_spend_summary` for client `SKY`
and whose Round 2 answers with the JSON text of an empty object. -/
def skyToolEngine : Engine :=
  ⟨Except.ok ⟨"tool_use",
      [Block.tool_use "get_spend_summary" [("client_code", Json.str "SKY")] "t1"]⟩,
    Except.ok ⟨"end", [Block.text "\x7b\x7d"]⟩⟩

/-- Witness for C1: a session bound to `TOW` whose tool call carries
`client_code = 'SKY'` executes the tool with `client_code = 'TOW'`. -/
theorem claude_parse_client_rewrite_witness :
    ("get_spend_summary", [("client_code", Json.str "TOW")])
        ∈ (claude_parse true 0 1 skyToolEngine emptyStore towReq emptyConvs).1.executedTools
      ∧ jget [("client_code", Json.str "TOW")] "client_code" = some (Json.str "TOW") :=
  claude_parse_client_rewrite 0 1 skyToolEngine emptyStore towReq emptyConvs
    ⟨"tool_use", [Block.tool_use "get_spend_summary" [("client_code", Json.str "SKY")] "t1"]⟩
    "TOW" (by decide) rfl rfl (by decide) rfl rfl
    "get_spend_summary" [("client_code", Json.str "SKY")] "t1" (List.Mem.head _) rfl

/-- C9.  The permission rewrite only overwrites an existing `client_code`
key (injecting one only for `get_client_detail` / `get_spend_summary`):
a `search_people` call without a `client_code` key is executed with its
input unchanged, `execute_tool` then passes `client_code = None`, and the
search applies no client filter, returning people across all clients. -/
theorem search_people_no_injection :
    (∀ um : String, ∀ ucl : Option String, ∀ inp : ToolInput,
        jget inp "client_code" = none → rewriteToolInput um ucl "search_people" inp = inp)
    ∧ (∀ now nowMonth : Nat, ∀ eng : Engine, ∀ store : Store, ∀ req : Req, ∀ cs : Convs,
        ∀ r1 : EngineResp, ∀ inp : ToolInput, ∀ bid : String,
        req.question ≠ "" → eng.round1 = Except.ok r1 → r1.stop_reason = "tool_use" →
        jget inp "client_code" = none →
        Block.tool_use "search_people" inp bid ∈ r1.content →
        ("search_people", inp)
          ∈ (claude_parse true now nowMonth eng store req cs).1.executedTools)
    ∧ (∀ nowMonth : Nat, ∀ store : Store, ∀ inp : ToolInput,
        jget inp "client_code" = none →
        execute_tool nowMonth store "search_people" inp
          = tool_search_people none (jget inp "search_term") true store.people)
    ∧ (∀ recs : List PersonRec, ∀ r : PersonRec, r ∈ recs → r.active = true → r.name ≠ "" →
        ∃ n ps, tool_search_people none none true (Except.ok recs)
            = [("count", Json.num n), ("people", Json.arr ps)]
          ∧ personJson r ∈ ps) := by
  have hrw : ∀ um : String, ∀ ucl : Option String, ∀ inp : ToolInput,
      jget inp "client_code" = none → rewriteToolInput um ucl "search_people" inp = inp := by
    intro um ucl inp h
    unfold rewriteToolInput
    split
    · cases ucl with
      | none => rfl
      | some uc => simp [h]
    · rfl
  refine ⟨hrw, ?_, ?_, ?_⟩
  · intro now nowMonth eng store req cs r1 inp bid hq h1 hsr hkey hmem
    rw [claude_parse_executedTools now nowMonth eng store req cs r1 hq h1 hsr]
    refine List.mem_filterMap.2 ⟨Block.tool_use "search_people" inp bid, hmem, ?_⟩
    simp [hrw req.userMode req.userClient inp hkey]
  · intro nowMonth store inp h
    simp [execute_tool, h]
  · intro recs r hr hactive hname
    refine ⟨_, _, rfl, ?_⟩
    refine List.mem_map.2 ⟨r, ?_, rfl⟩
    refine List.mem_filterMap.2 ⟨r, ?_, ?_⟩
    · exact List.mem_filter.2 ⟨hr, by simp [optTruthy, hactive]⟩
    · simp [hname, optTruthy]

/-- A People table spanning two different clients. -/
def twoClientPeople : List PersonRec :=
  [⟨"Sarah Smith", "sarah@fisher.example", "021", "FIS", true⟩,
   ⟨"Tom Jones", "tom@tower.example", "022", "TOW", true⟩]

/-- Witness for C9: in client mode bound to `TOW`, a `search_people` call
without a `client_code` key is executed unchanged, and searching with
`client_code = None` returns people of both clients. -/
theorem search_people_no_injection_witness :
    rewriteToolInput "client" (some "TOW") "search_people" [("search_term", Json.str "sa")]
        = [("search_term", Json.str "sa")]
      ∧ (∃ n ps, tool_search_people none none true (Except.ok twoClientPeople)
            = [("count", Json.num n), ("people", Json.arr ps)]
          ∧ personJson ⟨"Sarah Smith", "sarah@fisher.example", "021", "FIS", true⟩ ∈ ps)
      ∧ (∃ n ps, tool_search_people none none true (Except.ok twoClientPeople)
            = [("count", Json.num n), ("people", Json.arr ps)]
          ∧ personJson ⟨"Tom Jones", "tom@tower.example", "022", "TOW", true⟩ ∈ ps) :=
  ⟨search_people_no_injection.1 "client" (some "TOW") [("search_term", Json.str "sa")] rfl,
    search_people_no_injection.2.2.2 twoClientPeople _ (List.Mem.head _) rfl (by decide),
    search_people_no_injection.2.2.2 twoClientPeople _
      (List.Mem.tail _ (List.Mem.head _)) rfl (by decide)⟩

/-! ### Context-merge lemmas (claim C8) -/

theorem get_conversation_self (now : Nat) (sid : String) (cs : Convs) :
    (get_conversation now sid cs).1 sid = some (get_conversation now sid cs).2
    ∧ (get_conversation now sid cs).2.last_active = now := by
  unfold get_conversation
  cases h : sweepConvs now cs sid <;> simp [setConv, h]

theorem update_context_live (now : Nat) (sid : String) (upd : PyDict) (cs : Convs)
    (d : Conv) (h : cs sid = some d) (hlive : now - d.last_active ≤ SESSION_TIMEOUT) :
    update_context now sid upd cs sid
      = some ⟨d.messages, dictUpdate d.context upd, now⟩ := by
  have hc := (get_conversation_spec now sid cs).2.2.1 d h hlive
  unfold update_context
  rw [hc.1]
  simp [setConv]

theorem finishParse_success_context (now : Nat) (sid question : String) (blocks : List Block)
    (calls : Nat) (execs : List (String × ToolInput)) (outs : List PyDict)
    (m1 : List Msg) (cs1 : Convs) (d : Conv) (kvs mkvs : PyDict) (c : Json)
    (hd : cs1 sid = some d) (hlive : now - d.last_active ≤ SESSION_TIMEOUT)
    (hparse : jsonParse (cleanMessage (firstText blocks)) = some (Json.obj kvs))
    (hmod : jget kvs "modifiers" = some (Json.obj mkvs))
    (hclient : jget mkvs "client" = some c) (htr : jtruthy c = true) :
    ∃ d2, (finishParse now sid question blocks calls execs outs m1 cs1).2 sid = some d2
      ∧ jget d2.context "lastClient" = some c
      ∧ d2.messages = lastTwenty (lastTwenty (d.messages ++ [⟨"user", question⟩])
          ++ [⟨"assistant", summaryText kvs (some c)⟩]) := by
  have h2 := add_to_conversation_live now sid "user" question cs1 d hd hlive
  have h3 := add_to_conversation_live now sid "assistant" (summaryText kvs (some c))
    _ _ h2 (by simp)
  have h4 := update_context_live now sid [("lastClient", c)] _ _ h3 (by simp)
  simp only [finishParse, hparse, hmod, Option.getD_some, hclient, htr, if_true]
  refine ⟨_, h4, ?_, ?_⟩
  · dsimp only
    show jget (dset d.context "lastClient" c) "lastClient" = some c
    exact jget_dset_self d.context "lastClient" c
  · dsimp only

/-- C8 (amended).  `update_context` is a shallow merge — after the call
every key of the update dict maps to its new value, every other context
key keeps its prior value, and the session's messages are unchanged — and
on a successful parse whose `modifiers.client` is truthy (non-null and
non-empty), `/claude/parse` merges `lastClient ↦ that code` into the
session context. -/
theorem update_context_shallow_merge :
    (∀ now : Nat, ∀ sid : String, ∀ upd : PyDict, ∀ cs : Convs, ∀ d : Conv,
        cs sid = some d → now - d.last_active ≤ SESSION_TIMEOUT →
          update_context now sid upd cs sid
            = some ⟨d.messages, dictUpdate d.context upd, now⟩)
    ∧ (∀ base upd : PyDict, ∀ k : String, ∀ v : Json,
        jget upd.reverse k = some v → jget (dictUpdate base upd) k = some v)
    ∧ (∀ base upd : PyDict, ∀ k : String,
        jget upd.reverse k = none → jget (dictUpdate base upd) k = jget base k)
    ∧ (∀ now nowMonth : Nat, ∀ eng : Engine, ∀ store : Store, ∀ req : Req, ∀ cs : Convs,
        ∀ r1 r2 : EngineResp, ∀ kvs mkvs : PyDict, ∀ c : Json,
        req.question ≠ "" → eng.round1 = Except.ok r1 → eng.round2 = Except.ok r2 →
        jsonParse (cleanMessage (firstText
            (if r1.stop_reason = "tool_use" then r2.content else r1.content)))
          = some (Json.obj kvs) →
        jget kvs "modifiers" = some (Json.obj mkvs) →
        jget mkvs "client" = some c → jtruthy c = true →
        ∃ d2, (claude_parse true now nowMonth eng store req cs).2 req.sessionId = some d2
          ∧ jget d2.context "lastClient" = some c) := by
  refine ⟨update_context_live, ?_, ?_, ?_⟩
  · intro base upd k v h
    rw [jget_dictUpdate, h]
  · intro base upd k h
    rw [jget_dictUpdate, h]
  · intro now nowMonth eng store req cs r1 r2 kvs mkvs c hq h1 h2 hparse hmod hclient htr
    have hself := get_conversation_self now req.sessionId cs
    by_cases hsr : r1.stop_reason = "tool_use"
    · rw [if_pos hsr] at hparse
      rw [claude_parse_tools now nowMonth eng store req cs r1 r2 hq h1 hsr h2]
      obtain ⟨d2, hd2, hctx, _⟩ := finishParse_success_context now req.sessionId req.question
        r2.content 2 _ _ _ (get_conversation now req.sessionId cs).1
        (get_conversation now req.sessionId cs).2 kvs mkvs c hself.1
        (by rw [hself.2]; omega) hparse hmod hclient htr
      exact ⟨d2, hd2, hctx⟩
    · rw [if_neg hsr] at hparse
      rw [claude_parse_direct now nowMonth eng store req cs r1 hq h1 hsr]
      obtain ⟨d2, hd2, hctx, _⟩ := finishParse_success_context now req.sessionId req.question
        r1.content 1 [] [] _ (get_conversation now req.sessionId cs).1
        (get_conversation now req.sessionId cs).2 kvs mkvs c hself.1
        (by rw [hself.2]; omega) hparse hmod hclient htr
      exact ⟨d2, hd2, hctx⟩

/-- An engine answering directly with an intent whose `modifiers.client`
is `"SKY"`. -/
def skyIntentEngine : Engine :=
  ⟨Except.ok ⟨"end",
      [Block.text "\x7b\"modifiers\": \x7b\"client\": \"SKY\"\x7d\x7d"]⟩,
    Except.ok ⟨"end", []⟩⟩

/-- Witness for C8: a singleton merge overwrites `lastClient` while other
keys persist, and a successful parse resolving client `SKY` leaves
`lastClient = "SKY"` in the session context. -/
theorem update_context_shallow_merge_witness :
    jget (dictUpdate [("lastJob", Json.str "J100"), ("lastClient", Json.str "TOW")]
        [("lastClient", Json.str "SKY")]) "lastClient" = some (Json.str "SKY")
    ∧ jget (dictUpdate [("lastJob", Json.str "J100"), ("lastClient", Json.str "TOW")]
        [("lastClient", Json.str "SKY")]) "lastJob" = some (Json.str "J100")
    ∧ (∃ d2, (claude_parse true 0 1 skyIntentEngine emptyStore
          ⟨"sky jobs", some "s8", "hunch", none, true⟩ emptyConvs).2 "s8" = some d2
        ∧ jget d2.context "lastClient" = some (Json.str "SKY")) :=
  ⟨update_context_shallow_merge.2.1 _ [("lastClient", Json.str "SKY")] "lastClient"
      (Json.str "SKY") rfl,
    update_context_shallow_merge.2.2.1 _ [("lastClient", Json.str "SKY")] "lastJob" rfl,
    update_context_shallow_merge.2.2.2 0 1 skyIntentEngine emptyStore
      ⟨"sky jobs", some "s8", "hunch", none, true⟩ emptyConvs
      ⟨"end", [Block.text "\x7b\"modifiers\": \x7b\"client\": \"SKY\"\x7d\x7d"]⟩
      ⟨"end", []⟩ [("modifiers", Json.obj [("client", Json.str "SKY")])]
      [("client", Json.str "SKY")] (Json.str "SKY")
      (by decide) rfl rfl rfl rfl rfl rfl⟩

/-- An engine answering directly with an intent whose `modifiers.client`
is the empty string — non-null, but falsy in Python. -/
def emptyClientEngine : Engine :=
  ⟨Except.ok ⟨"end",
      [Block.text "\x7b\"modifiers\": \x7b\"client\": \"\"\x7d\x7d"]⟩,
    Except.ok ⟨"end", []⟩⟩

/-- Counterexample to C8 as stated: a successful parse whose
`modifiers.client` is the non-null empty string does NOT merge
`lastClient` into the context — the code tests Python truthiness, not
non-nullness. -/
theorem claude_parse_empty_client_no_merge :
    (claude_parse true 0 1 emptyClientEngine emptyStore
        ⟨"jobs", some "s9", "hunch", none, true⟩ emptyConvs).1.parsed
      = some (Json.obj [("modifiers", Json.obj [("client", Json.str "")])])
    ∧ ((claude_parse true 0 1 emptyClientEngine emptyStore
        ⟨"jobs", some "s9", "hunch", none, true⟩ emptyConvs).2 "s9").map
          (fun d2 => jget d2.context "lastClient")
      = some none :=
  ⟨rfl, rfl⟩

/-! ### Parse-failure lemmas (claim C3) -/

theorem finishParse_parse_failure (now : Nat) (sid question : String) (blocks : List Block)
    (calls : Nat) (execs : List (String × ToolInput)) (outs : List PyDict)
    (m1 : List Msg) (cs1 : Convs)
    (hfail : jsonParse (cleanMessage (firstText blocks)) = none) :
    finishParse now sid question blocks calls execs outs m1 cs1
      = (⟨200, none, some "Could not parse response", some m1, calls, execs, outs⟩, cs1) := by
  unfold finishParse
  rw [hfail]

/-- C3 (amended).  When the engine's final text is not valid JSON after
fence-stripping, `/claude/parse` returns 200 with `parsed = null` and the
non-empty diagnostic `'Could not parse response'` without raising, and
the session's message history is left untouched for that turn: neither
the user's question nor any assistant entry is appended. -/
theorem claude_parse_parse_failure (now nowMonth : Nat) (eng : Engine) (store : Store)
    (req : Req) (cs : Convs) (r1 r2 : EngineResp)
    (hq : req.question ≠ "") (h1 : eng.round1 = Except.ok r1)
    (h2 : eng.round2 = Except.ok r2)
    (hfail : jsonParse (cleanMessage (firstText
        (if r1.stop_reason = "tool_use" then r2.content else r1.content))) = none) :
    (claude_parse true now nowMonth eng store req cs).1.status = 200
    ∧ (claude_parse true now nowMonth eng store req cs).1.parsed = none
    ∧ (claude_parse true now nowMonth eng store req cs).1.error
        = some "Could not parse response"
    ∧ "Could not parse response" ≠ ""
    ∧ ((claude_parse true now nowMonth eng store req cs).2 req.sessionId).map
          (fun d2 => d2.messages)
        = some (get_conversation now req.sessionId cs).2.messages := by
  have hself := get_conversation_self now req.sessionId cs
  by_cases hsr : r1.stop_reason = "tool_use"
  · rw [if_pos hsr] at hfail
    rw [claude_parse_tools now nowMonth eng store req cs r1 r2 hq h1 hsr h2]
    rw [finishParse_parse_failure _ _ _ _ _ _ _ _ _ hfail]
    refine ⟨rfl, rfl, rfl, by decide, ?_⟩
    dsimp only
    rw [hself.1]
    rfl
  · rw [if_neg hsr] at hfail
    rw [claude_parse_direct now nowMonth eng store req cs r1 hq h1 hsr]
    rw [finishParse_parse_failure _ _ _ _ _ _ _ _ _ hfail]
    refine ⟨rfl, rfl, rfl, by decide, ?_⟩
    dsimp only
    rw [hself.1]
    rfl

/-- An engine answering round 1 with prose that is not JSON. -/
def proseEngine : Engine :=
  ⟨Except.ok ⟨"end", [Block.text "Sure, here you go!"]⟩, Except.ok ⟨"end", []⟩⟩

/-- Witness for C3 (amended) at a concrete input: the prose answer
soft-fails with 200/`parsed = null` and an untouched (empty) history. -/
theorem claude_parse_parse_failure_witness :
    (claude_parse true 0 1 proseEngine emptyStore
        ⟨"hi", some "s3", "hunch", none, true⟩ emptyConvs).1.status = 200
    ∧ (claude_parse true 0 1 proseEngine emptyStore
        ⟨"hi", some "s3", "hunch", none, true⟩ emptyConvs).1.parsed = none
    ∧ (claude_parse true 0 1 proseEngine emptyStore
        ⟨"hi", some "s3", "hunch", none, true⟩ emptyConvs).1.error
        = some "Could not parse response"
    ∧ "Could not parse response" ≠ ""
    ∧ ((claude_parse true 0 1 proseEngine emptyStore
        ⟨"hi", some "s3", "hunch", none, true⟩ emptyConvs).2 "s3").map
          (fun d2 => d2.messages)
        = some (get_conversation 0 "s3" emptyConvs).2.messages :=
  claude_parse_parse_failure 0 1 proseEngine emptyStore
    ⟨"hi", some "s3", "hunch", none, true⟩ emptyConvs
    ⟨"end", [Block.text "Sure, here you go!"]⟩ ⟨"end", []⟩
    (by decide) rfl rfl rfl

/-- Counterexample to C3 as stated: after the parse failure the session
history does not record the user's question either — it is empty, not
`[{role: 'user', content: 'hi'}]`.  Nothing at all is appended, because
both history appends sit after the `json.loads` call in the `try` body. -/
theorem claude_parse_failure_drops_user_turn :
    ((claude_parse true 0 1 proseEngine emptyStore
        ⟨"hi", some "s3", "hunch", none, true⟩ emptyConvs).2 "s3").map
          (fun d2 => d2.messages)
      = some []
    ∧ some ([] : List Msg) ≠ some [(⟨"user", "hi"⟩ : Msg)] :=
  ⟨rfl, by decide⟩

/-! ### Tool-boundary lemmas (claim C6) -/

/-- C6.  `execute_tool` always returns a mapping and never lets a failure
escape: unregistered names yield exactly
`{'error': 'Unknown tool: <name>'}`, and every registered tool returns
either an `{'error': message}` mapping (internal failures captured as
data) or its success mapping, whose key set is one of the declared
success shapes. -/
theorem execute_tool_total (nowMonth : Nat) (store : Store) (tool_name : String)
    (inp : ToolInput) :
    (tool_name ∉ (["search_people", "get_client_detail", "get_spend_summary"] : List String) →
        execute_tool nowMonth store tool_name inp
          = [("error", Json.str ("Unknown tool: " ++ tool_name))])
    ∧ ((∃ e, execute_tool nowMonth store tool_name inp = [("error", Json.str e)])
        ∨ (execute_tool nowMonth store tool_name inp).map Prod.fst = ["count", "people"]
        ∨ (execute_tool nowMonth store tool_name inp).map Prod.fst
            = ["code", "name", "yearEnd", "currentQuarter", "monthlyCommitted",
               "quarterlyCommitted", "thisMonth", "thisQuarter", "rolloverCredit"]
        ∨ (execute_tool nowMonth store tool_name inp).map Prod.fst
            = ["client", "clientCode", "period", "budget", "spent", "remaining",
               "percentUsed", "rolloverApplied", "rolloverAmount"]
        ∨ (execute_tool nowMonth store tool_name inp).map Prod.fst
            = ["client", "clientCode", "period", "budget", "spent", "remaining",
               "percentUsed"]) := by
  constructor
  · intro hun
    simp only [List.mem_cons, List.not_mem_nil, or_false, not_or] at hun
    obtain ⟨hn1, hn2, hn3⟩ := hun
    unfold execute_tool
    rw [if_neg hn1, if_neg hn2, if_neg hn3]
  · unfold execute_tool
    by_cases hs1 : tool_name = "search_people"
    · rw [if_pos hs1]
      unfold tool_search_people
      cases hdb : store.people with
      | error e => exact Or.inl ⟨e, rfl⟩
      | ok recs =>
        dsimp only
        split
        · exact Or.inl ⟨_, rfl⟩
        · exact Or.inr (Or.inl rfl)
    · rw [if_neg hs1]
      by_cases hs2 : tool_name = "get_client_detail"
      · rw [if_pos hs2]
        unfold tool_get_client_detail
        cases hdb : store.clients with
        | error e => exact Or.inl ⟨e, rfl⟩
        | ok recs =>
          dsimp only
          split
          · exact Or.inl ⟨_, rfl⟩
          · exact Or.inr (Or.inr (Or.inl rfl))
      · rw [if_neg hs2]
        by_cases hs3 : tool_name = "get_spend_summary"
        · rw [if_pos hs3]
          unfold tool_get_spend_summary
          cases hdb : store.clients with
          | error e => exact Or.inl ⟨e, rfl⟩
          | ok recs =>
            dsimp only
            split
            · exact Or.inl ⟨_, rfl⟩
            · split
              · exact Or.inr (Or.inr (Or.inr (Or.inl rfl)))
              · split
                · split
                  · exact Or.inl ⟨_, rfl⟩
                  · exact Or.inr (Or.inr (Or.inr (Or.inl rfl)))
                · split
                  · exact Or.inr (Or.inr (Or.inr (Or.inl rfl)))
                  · split
                    · exact Or.inr (Or.inr (Or.inr (Or.inr rfl)))
                    · exact Or.inr (Or.inr (Or.inr (Or.inl rfl)))
        · rw [if_neg hs3]
          exact Or.inl ⟨_, rfl⟩

/-- Witness for C6: an unregistered name gives exactly the unknown-tool
error mapping, and a registered tool at a concrete input returns one of
the declared shapes. -/
theorem execute_tool_total_witness :
    execute_tool 1 emptyStore "frobnicate" [] =
        [("error", Json.str ("Unknown tool: " ++ "frobnicate"))]
    ∧ ((∃ e, execute_tool 1 emptyStore "search_people" [] = [("error", Json.str e)])
        ∨ (execute_tool 1 emptyStore "search_people" []).map Prod.fst = ["count", "people"]
        ∨ (execute_tool 1 emptyStore "search_people" []).map Prod.fst
            = ["code", "name", "yearEnd", "currentQuarter", "monthlyCommitted",
               "quarterlyCommitted", "thisMonth", "thisQuarter", "rolloverCredit"]
        ∨ (execute_tool 1 emptyStore "search_people" []).map Prod.fst
            = ["client", "clientCode", "period", "budget", "spent", "remaining",
               "percentUsed", "rolloverApplied", "rolloverAmount"]
        ∨ (execute_tool 1 emptyStore "search_people" []).map Prod.fst
            = ["client", "clientCode", "period", "budget", "spent", "remaining",
               "percentUsed"]) :=
  ⟨(execute_tool_total 1 emptyStore "frobnicate" []).1 (by decide),
    (execute_tool_total 1 emptyStore "search_people" []).2⟩

/-! ### Fence-stripping lemmas (claim C7) -/

theorem isBT3_head_ne (c : Char) (l : List Char) (h : c ≠ backtick) :
    isBT3 (c :: l) = false := by
  cases l with
  | nil => rfl
  | cons x l2 =>
    cases l2 with
    | nil => rfl
    | cons y l3 => simp [isBT3, h]

theorem hasBT_cons (c : Char) (l : List Char) :
    hasBT (c :: l) = (isBT3 (c :: l) || hasBT l) := rfl

theorem hasBT_cons_ne (c : Char) (l : List Char) (h : c ≠ backtick) :
    hasBT (c :: l) = hasBT l := by
  rw [hasBT_cons, isBT3_head_ne c l h, Bool.false_or]

theorem isBT3_append_ne (m : List Char) (c : Char) (h : c ≠ backtick) :
    isBT3 (m ++ [c]) = isBT3 m := by
  cases m with
  | nil => simp [isBT3, h]
  | cons a m1 =>
    cases m1 with
    | nil => rfl
    | cons b m2 =>
      cases m2 with
      | nil => simp [isBT3, h]
      | cons d m3 => rfl

theorem hasBT_append_ne (l : List Char) (c : Char) (h : c ≠ backtick) :
    hasBT (l ++ [c]) = hasBT l := by
  induction l with
  | nil =>
    show (isBT3 [c] || hasBT []) = hasBT []
    rw [isBT3_head_ne c [] h]
    rfl
  | cons x l ih =>
    rw [List.cons_append, hasBT_cons, ih, ← List.cons_append,
      isBT3_append_ne (x :: l) c h, ← hasBT_cons]

theorem hasBT_false_parts (c : Char) (l : List Char) (h : hasBT (c :: l) = false) :
    isBT3 (c :: l) = false ∧ hasBT l = false := by
  rw [hasBT_cons] at h
  exact Bool.or_eq_false_iff.1 h

theorem splitBTF_congr (f : Nat) : ∀ (g : Nat) (l : List Char), l.length ≤ f →
    l.length ≤ g → splitBTF f l = splitBTF g l := by
  induction f with
  | zero =>
    intro g l hf _
    have h0 : l = [] := List.eq_nil_of_length_eq_zero (Nat.le_zero.1 hf)
    subst h0
    cases g <;> rfl
  | succ f ih =>
    intro g l hf hg
    cases l with
    | nil => cases g <;> rfl
    | cons c rest =>
      cases g with
      | zero => simp at hg
      | succ g2 =>
        have hf2 : rest.length ≤ f := by simp at hf; omega
        have hg2 : rest.length ≤ g2 := by simp at hg; omega
        show splitBTF (f + 1) (c :: rest) = splitBTF (g2 + 1) (c :: rest)
        simp only [splitBTF]
        by_cases hb : isBT3 (c :: rest) = true
        · rw [if_pos hb, if_pos hb,
            ih g2 (rest.drop 2) (by rw [List.length_drop]; omega)
              (by rw [List.length_drop]; omega)]
        · rw [if_neg hb, if_neg hb, ih g2 rest hf2 hg2]

theorem splitBT_nil : splitBT [] = [[]] := rfl

theorem splitBTF_no (f : Nat) : ∀ l : List Char, l.length ≤ f → hasBT l = false →
    splitBTF f l = [l] := by
  induction f with
  | zero =>
    intro l hf _
    have h0 : l = [] := List.eq_nil_of_length_eq_zero (Nat.le_zero.1 hf)
    subst h0
    rfl
  | succ f ih =>
    intro l hf h
    cases l with
    | nil => rfl
    | cons c rest =>
      obtain ⟨h1, h2⟩ := hasBT_false_parts c rest h
      show splitBTF (f + 1) (c :: rest) = [c :: rest]
      simp only [splitBTF]
      rw [if_neg (by simp [h1])]
      rw [ih rest (by simp at hf; omega) h2]

theorem splitBT_no (l : List Char) (h : hasBT l = false) : splitBT l = [l] :=
  splitBTF_no l.length l le_rfl h

theorem splitBTF_mid (xs : List Char) : ∀ (f : Nat) (ys : List Char),
    xs.length + 3 + ys.length ≤ f → hasBT xs = false →
    (∀ c, xs.getLast? = some c → c ≠ backtick) →
    splitBTF f (xs ++ backtick :: backtick :: backtick :: ys) = xs :: splitBT ys := by
  induction xs with
  | nil =>
    intro f ys hf _ _
    cases f with
    | zero => simp at hf
    | succ f2 =>
      show splitBTF (f2 + 1) (backtick :: backtick :: backtick :: ys) = [] :: splitBT ys
      simp only [splitBTF]
      rw [if_pos (by simp [isBT3])]
      show [] :: splitBTF f2 ys = [] :: splitBT ys
      rw [splitBTF_congr f2 ys.length ys (by simp at hf; omega) le_rfl]
      rfl
  | cons x xs ih =>
    intro f ys hf h1 h2
    cases f with
    | zero => simp at hf
    | succ f2 =>
      have hx3 : isBT3 (x :: (xs ++ backtick :: backtick :: backtick :: ys)) = false := by
        cases xs with
        | nil =>
          exact isBT3_head_ne x _ (h2 x rfl)
        | cons y xs2 =>
          cases xs2 with
          | nil =>
            have hy : y ≠ backtick := h2 y rfl
            simp [isBT3, hy]
          | cons z xs3 =>
            have h13 : isBT3 (x :: y :: z :: xs3) = false := (hasBT_false_parts x _ h1).1
            exact h13
      show splitBTF (f2 + 1) (x :: (xs ++ backtick :: backtick :: backtick :: ys))
        = (x :: xs) :: splitBT ys
      simp only [splitBTF]
      rw [if_neg (by simp [hx3])]
      rw [ih f2 ys (by simp at hf ⊢; omega) (hasBT_false_parts x xs h1).2
        (fun c hc => h2 c (by
          cases xs with
          | nil => simp at hc
          | cons a as => rwa [List.getLast?_cons_cons]))]

theorem splitBT_mid (xs ys : List Char) (h1 : hasBT xs = false)
    (h2 : ∀ c, xs.getLast? = some c → c ≠ backtick) :
    splitBT (xs ++ backtick :: backtick :: backtick :: ys) = xs :: splitBT ys :=
  splitBTF_mid xs _ ys (by simp; omega) h1 h2

theorem dropWhile_head_not (p : Char → Bool) (l : List Char) :
    ∀ c, (l.dropWhile p).head? = some c → p c = false := by
  induction l with
  | nil => intro c hc; simp [List.dropWhile] at hc
  | cons a l ih =>
    intro c hc
    by_cases ha : p a = true
    · rw [List.dropWhile_cons, if_pos ha] at hc
      exact ih c hc
    · rw [List.dropWhile_cons, if_neg ha] at hc
      simp at hc
      subst hc
      simpa using ha

theorem dropWhile_eq_self (p : Char → Bool) (l : List Char)
    (h : ∀ c, l.head? = some c → p c = false) : l.dropWhile p = l := by
  cases l with
  | nil => rfl
  | cons a l => rw [List.dropWhile_cons, if_neg (by simp [h a rfl])]

theorem dropWhile_idem (p : Char → Bool) (l : List Char) :
    (l.dropWhile p).dropWhile p = l.dropWhile p :=
  dropWhile_eq_self p _ (dropWhile_head_not p l)

theorem dropTrail_pre (l : List Char) : dropTrail l <+: l := by
  unfold dropTrail
  conv_rhs => rw [← List.reverse_reverse l]
  exact List.reverse_prefix.2 (List.dropWhile_suffix pyIsSpace)

theorem head?_of_pre (l₁ l₂ : List Char) (h : l₁ <+: l₂) (hne : l₁ ≠ []) :
    l₂.head? = l₁.head? := by
  obtain ⟨t, rfl⟩ := h
  cases l₁ with
  | nil => exact absurd rfl hne
  | cons a l => rfl

theorem stripChars_head_not (l : List Char) (c : Char)
    (hc : (stripChars l).head? = some c) : pyIsSpace c = false := by
  unfold stripChars at hc
  have hne : dropTrail (l.dropWhile pyIsSpace) ≠ [] := by
    intro he
    rw [he] at hc
    simp at hc
  have hh := head?_of_pre _ _ (dropTrail_pre (l.dropWhile pyIsSpace)) hne
  exact dropWhile_head_not pyIsSpace l c (hh ▸ hc)

theorem stripChars_idem (l : List Char) : stripChars (stripChars l) = stripChars l := by
  show dropTrail (List.dropWhile pyIsSpace (stripChars l)) = stripChars l
  rw [dropWhile_eq_self pyIsSpace (stripChars l) (stripChars_head_not l)]
  show dropTrail (dropTrail (List.dropWhile pyIsSpace l)) = stripChars l
  unfold dropTrail stripChars
  rw [List.reverse_reverse, dropWhile_idem]
  rfl

theorem stripChars_cons_space (c : Char) (l : List Char) (h : pyIsSpace c = true) :
    stripChars (c :: l) = stripChars l := by
  unfold stripChars
  rw [List.dropWhile_cons, if_pos h]

theorem dropTrail_append_space (x : List Char) (c : Char) (h : pyIsSpace c = true) :
    dropTrail (x ++ [c]) = dropTrail x := by
  unfold dropTrail
  rw [show (x ++ [c]).reverse = c :: x.reverse by simp]
  rw [List.dropWhile_cons, if_pos h]

theorem stripChars_append_space (l : List Char) (c : Char) (h : pyIsSpace c = true) :
    stripChars (l ++ [c]) = stripChars l := by
  unfold stripChars
  rcases heq : l.dropWhile pyIsSpace with _ | ⟨a, m⟩
  · have h2 : (l ++ [c]).dropWhile pyIsSpace = [] := by
      rw [List.dropWhile_append, heq]
      simp [List.dropWhile, h]
    rw [h2]
  · have h2 : (l ++ [c]).dropWhile pyIsSpace = (a :: m) ++ [c] := by
      rw [List.dropWhile_append, heq]
      simp
    rw [h2]
    exact dropTrail_append_space (a :: m) c h

theorem stripChars_eq_self (l : List Char)
    (hh : ∀ c, l.head? = some c → pyIsSpace c = false)
    (hl : ∀ c, l.getLast? = some c → pyIsSpace c = false) : stripChars l = l := by
  unfold stripChars
  rw [dropWhile_eq_self pyIsSpace l hh]
  unfold dropTrail
  rw [dropWhile_eq_self pyIsSpace l.reverse
    (fun c hc => hl c (by rwa [List.head?_reverse] at hc))]
  exact List.reverse_reverse l

theorem cleanMessage_unfenced (t : String)
    (h2 : ("```".data).isPrefixOf (stripChars t.data) = false) :
    cleanMessage t = ⟨stripChars t.data⟩ := by
  unfold cleanMessage
  dsimp only
  rw [if_neg (show ¬ (("```".data).isPrefixOf (stripChars t.data) = true) from
    fun h => Bool.noConfusion (h2.symm.trans h))]
  rw [stripChars_idem]

/-- C7 (amended).  For every text `t` that does not contain a
triple-backtick substring and whose stripped form does not begin with a
triple-backtick fence (true of every JSON value), wrapping the engine
output as ```` ```json\n…\n``` ```` or in plain triple-backtick fences
cleans to exactly the same string as the unwrapped text, so `json.loads`
yields the same parsed intent. -/
theorem cleanMessage_fence (t : String) (h1 : hasBT t.data = false)
    (h2 : ("```".data).isPrefixOf (stripChars t.data) = false) :
    cleanMessage ("```json\n" ++ t ++ "\n```") = cleanMessage t
    ∧ cleanMessage ("```\n" ++ t ++ "\n```") = cleanMessage t
    ∧ jsonParse (cleanMessage ("```json\n" ++ t ++ "\n```")) = jsonParse (cleanMessage t)
    ∧ jsonParse (cleanMessage ("```\n" ++ t ++ "\n```")) = jsonParse (cleanMessage t) := by
  have hnl : pyIsSpace '\n' = true := by decide
  have hnb : ('\n' : Char) ≠ backtick := by decide
  -- the json-tagged wrapping
  have hw1 : cleanMessage ("```json\n" ++ t ++ "\n```") = ⟨stripChars t.data⟩ := by
    have hlast : ("```json\n" ++ t ++ "\n```").data
        = ("```json\n".data ++ t.data ++ ['\n', backtick, backtick]) ++ [backtick] := by
      show "```json\n".data ++ t.data ++ "\n```".data = _
      rw [show "\n```".data = ['\n', backtick, backtick] ++ [backtick] from rfl]
      rw [← List.append_assoc]
    have hstrip : stripChars ("```json\n" ++ t ++ "\n```").data
        = ("```json\n" ++ t ++ "\n```").data := by
      apply stripChars_eq_self
      · intro c hc
        rw [show ("```json\n" ++ t ++ "\n```").data.head? = some backtick from rfl] at hc
        injection hc with hc2
        subst hc2
        decide
      · intro c hc
        rw [hlast, List.getLast?_concat] at hc
        injection hc with hc2
        subst hc2
        decide
    have e0 : t.data ++ "\n```".data
        = (t.data ++ ['\n']) ++ backtick :: backtick :: backtick :: ([] : List Char) := by
      rw [List.append_assoc]
      rfl
    have e1 : ("```json\n" ++ t ++ "\n```").data
        = ([] : List Char) ++ backtick :: backtick :: backtick ::
            (("json\n".data ++ t.data ++ ['\n'])
              ++ backtick :: backtick :: backtick :: ([] : List Char)) := by
      show backtick :: backtick :: backtick ::
          ('j' :: 's' :: 'o' :: 'n' :: '\n' :: (t.data ++ "\n```".data))
        = backtick :: backtick :: backtick ::
          ('j' :: 's' :: 'o' :: 'n' :: '\n' ::
            ((t.data ++ ['\n']) ++ backtick :: backtick :: backtick :: ([] : List Char)))
      rw [e0]
    have hxs1 : hasBT ("json\n".data ++ t.data ++ ['\n']) = false := by
      show hasBT ('j' :: 's' :: 'o' :: 'n' :: '\n' :: (t.data ++ ['\n'])) = false
      rw [hasBT_cons_ne _ _ (by decide), hasBT_cons_ne _ _ (by decide),
        hasBT_cons_ne _ _ (by decide), hasBT_cons_ne _ _ (by decide),
        hasBT_cons_ne _ _ hnb, hasBT_append_ne _ _ hnb]
      exact h1
    have hxs2 : ∀ c, ("json\n".data ++ t.data ++ ['\n']).getLast? = some c → c ≠ backtick := by
      intro c hc
      rw [List.getLast?_concat] at hc
      injection hc with hc2
      subst hc2
      decide
    have hsplit : splitBT ("```json\n" ++ t ++ "\n```").data
        = [[], ("json\n".data ++ t.data ++ ['\n']), []] := by
      rw [e1, splitBT_mid [] _ rfl (fun c hc => by simp at hc)]
      rw [splitBT_mid ("json\n".data ++ t.data ++ ['\n']) [] hxs1 hxs2]
      rfl
    unfold cleanMessage
    dsimp only
    rw [hstrip]
    rw [if_pos (show ("```".data).isPrefixOf ("```json\n" ++ t ++ "\n```").data = true
      from rfl)]
    rw [hsplit]
    rw [show ([[], ("json\n".data ++ t.data ++ ['\n']), []].getD 1 [])
        = "json\n".data ++ t.data ++ ['\n'] from rfl]
    rw [if_pos (show ("json".data).isPrefixOf ("json\n".data ++ t.data ++ ['\n']) = true
      from rfl)]
    rw [show ("json\n".data ++ t.data ++ ['\n']).drop 4 = '\n' :: (t.data ++ ['\n'])
      from rfl]
    rw [stripChars_cons_space _ _ hnl, stripChars_append_space _ _ hnl]
  -- the plain wrapping
  have hw2 : cleanMessage ("```\n" ++ t ++ "\n```") = ⟨stripChars t.data⟩ := by
    have hlast : ("```\n" ++ t ++ "\n```").data
        = ("```\n".data ++ t.data ++ ['\n', backtick, backtick]) ++ [backtick] := by
      show "```\n".data ++ t.data ++ "\n```".data = _
      rw [show "\n```".data = ['\n', backtick, backtick] ++ [backtick] from rfl]
      rw [← List.append_assoc]
    have hstrip : stripChars ("```\n" ++ t ++ "\n```").data
        = ("```\n" ++ t ++ "\n```").data := by
      apply stripChars_eq_self
      · intro c hc
        rw [show ("```\n" ++ t ++ "\n```").data.head? = some backtick from rfl] at hc
        injection hc with hc2
        subst hc2
        decide
      · intro c hc
        rw [hlast, List.getLast?_concat] at hc
        injection hc with hc2
        subst hc2
        decide
    have e0 : t.data ++ "\n```".data
        = (t.data ++ ['\n']) ++ backtick :: backtick :: backtick :: ([] : List Char) := by
      rw [List.append_assoc]
      rfl
    have e1 : ("```\n" ++ t ++ "\n```").data
        = ([] : List Char) ++ backtick :: backtick :: backtick ::
            (("\n".data ++ t.data ++ ['\n'])
              ++ backtick :: backtick :: backtick :: ([] : List Char)) := by
      show backtick :: backtick :: backtick :: ('\n' :: (t.data ++ "\n```".data))
        = backtick :: backtick :: backtick ::
          ('\n' :: ((t.data ++ ['\n']) ++ backtick :: backtick :: backtick :: ([] : List Char)))
      rw [e0]
    have hxs1 : hasBT ("\n".data ++ t.data ++ ['\n']) = false := by
      show hasBT ('\n' :: (t.data ++ ['\n'])) = false
      rw [hasBT_cons_ne _ _ hnb, hasBT_append_ne _ _ hnb]
      exact h1
    have hxs2 : ∀ c, ("\n".data ++ t.data ++ ['\n']).getLast? = some c → c ≠ backtick := by
      intro c hc
      rw [List.getLast?_concat] at hc
      injection hc with hc2
      subst hc2
      decide
    have hsplit : splitBT ("```\n" ++ t ++ "\n```").data
        = [[], ("\n".data ++ t.data ++ ['\n']), []] := by
      rw [e1, splitBT_mid [] _ rfl (fun c hc => by simp at hc)]
      rw [splitBT_mid ("\n".data ++ t.data ++ ['\n']) [] hxs1 hxs2]
      rfl
    have hnoj : ("json".data).isPrefixOf ("\n".data ++ t.data ++ ['\n']) = false := rfl
    unfold cleanMessage
    dsimp only
    rw [hstrip]
    rw [if_pos (show ("```".data).isPrefixOf ("```\n" ++ t ++ "\n```").data = true
      from rfl)]
    rw [hsplit]
    rw [show ([[], ("\n".data ++ t.data ++ ['\n']), []].getD 1 [])
        = "\n".data ++ t.data ++ ['\n'] from rfl]
    rw [if_neg (show ¬ (("json".data).isPrefixOf ("\n".data ++ t.data ++ ['\n']) = true)
      from fun h => Bool.noConfusion (hnoj.symm.trans h))]
    rw [show ("\n".data ++ t.data ++ ['\n'] : List Char) = '\n' :: (t.data ++ ['\n'])
      from rfl]
    rw [stripChars_cons_space _ _ hnl, stripChars_append_space _ _ hnl]
  have hct := cleanMessage_unfenced t h2
  refine ⟨hw1.trans hct.symm, hw2.trans hct.symm, ?_, ?_⟩
  · rw [hw1, hct]
  · rw [hw2, hct]

/-- Witness for C7 at a concrete JSON text: `{"a": true}` parses
identically wrapped or unwrapped. -/
theorem cleanMessage_fence_witness :
    (cleanMessage ("```json\n" ++ "\x7b\"a\": true\x7d" ++ "\n```")
        = cleanMessage "\x7b\"a\": true\x7d"
      ∧ cleanMessage ("```\n" ++ "\x7b\"a\": true\x7d" ++ "\n```")
        = cleanMessage "\x7b\"a\": true\x7d"
      ∧ jsonParse (cleanMessage ("```json\n" ++ "\x7b\"a\": true\x7d" ++ "\n```"))
        = jsonParse (cleanMessage "\x7b\"a\": true\x7d")
      ∧ jsonParse (cleanMessage ("```\n" ++ "\x7b\"a\": true\x7d" ++ "\n```"))
        = jsonParse (cleanMessage "\x7b\"a\": true\x7d"))
    ∧ jsonParse (cleanMessage "\x7b\"a\": true\x7d")
        = some (Json.obj [("a", Json.bool true)]) :=
  ⟨cleanMessage_fence "\x7b\"a\": true\x7d" (by decide) (by decide), rfl⟩

/-- A JSON text that contains a triple backtick inside a string literal. -/
def fenceBreaker : String := "\x7b\"a\": \"```\"\x7d"

/-- Counterexample to C7 as stated: for the valid JSON text
`{"a": "```"}` the wrapped form does not parse identically to the
unwrapped form — `split('```')` also cuts at the backticks inside the
JSON string, so the wrapped form truncates to invalid JSON. -/
theorem cleanMessage_fence_counterexample :
    jsonParse (cleanMessage fenceBreaker) = some (Json.obj [("a", Json.str "```")])
    ∧ jsonParse (cleanMessage ("```json\n" ++ fenceBreaker ++ "\n```")) = none
    ∧ jsonParse (cleanMessage ("```json\n" ++ fenceBreaker ++ "\n```"))
        ≠ jsonParse (cleanMessage fenceBreaker) := by
  refine ⟨rfl, rfl, ?_⟩
  intro h
  rw [show jsonParse (cleanMessage ("```json\n" ++ fenceBreaker ++ "\n```")) = none
    from rfl] at h
  rw [show jsonParse (cleanMessage fenceBreaker)
    = some (Json.obj [("a", Json.str "```")]) from rfl] at h
  exact Option.noConfusion h

end DotRemote
